import Mathlib

/-!
# go-crtsh: a shallow embedding of `crtsh.go`

The client in `crtsh.go` validates a domain, builds a query URL against the
fixed endpoint `https://crt.sh`, performs one GET through an injected HTTP
client and decodes the JSON answer into `CertificateRecord` values.

Go strings and byte slices are modelled as lists of bytes.  The functions of
the Go standard library that `crtsh.go` calls (`strings`, `net/url`,
`net/http`, `io`, `encoding/json`) are modelled by executable definitions
that keep the names of the library; the HTTP client is a function from
requests to responses.  Effects are made observable through a trace of events
carried in the outcome of `Search`.
-/

namespace Gocrtsh

/-! ## Bytes and strings -/

/-- One byte of a Go string or byte slice. -/
abbrev Byte := Fin 256

/-- Go `string` and `[]byte` values: finite sequences of bytes. -/
abbrev GoString := List Byte

/-- Bytes of an ASCII literal of the source text. -/
def lit (s : String) : GoString := s.toList.map (fun c => Fin.ofNat c.toNat)

/-! ## Errors -/

/-- Go `error` values that can flow through `Search`. -/
inductive GoError where
  /-- Value of `errors.New(s)` or of `fmt.Errorf` without `%w`; `s` is the message. -/
  | errorString (s : GoString)
  /-- Value of `fmt.Errorf(pfx + "%w", err)`: message prefix and wrapped error. -/
  | wrapError (pfx : GoString) (err : GoError)
  /-- Go `url.EscapeError`. -/
  | EscapeError (s : GoString)
  /-- Go `url.InvalidHostError`. -/
  | InvalidHostError (s : GoString)
  /-- Go `*url.Error` with its operation, URL and cause. -/
  | urlError (op url : GoString) (err : GoError)
  /-- Go `*json.SyntaxError` (message and offset are not modelled). -/
  | SyntaxError
  /-- Go `*json.UnmarshalTypeError` with its `Value` field. -/
  | UnmarshalTypeError (value : GoString)
  /-- Any other error value, for instance one produced by the HTTP client. -/
  | other (id : Nat)
  deriving DecidableEq, Repr

/-! ## Package `strings` -/

/-- Go `strings.HasPrefix`: `len(s) >= len(prefix) && s[:len(prefix)] == prefix`. -/
def HasPrefix (s pre : GoString) : Bool :=
  decide (pre.length ≤ s.length) && (s.take pre.length == pre)

/-- Go `strings.HasSuffix`: `len(s) >= len(suffix) && s[len(s)-len(suffix):] == suffix`. -/
def HasSuffix (s suf : GoString) : Bool :=
  decide (suf.length ≤ s.length) && (s.drop (s.length - suf.length) == suf)

/-- Search of the first occurrence of `substr` in `s`, counting positions from `i`. -/
def indexFrom (substr : GoString) : GoString → Nat → Option Nat
  | [], i => if substr = [] then some i else none
  | b :: s, i => if HasPrefix (b :: s) substr then some i else indexFrom substr s (i + 1)

/-- Go `strings.Index`: position of the first occurrence of `substr` in `s`, or `-1`. -/
def Index (s substr : GoString) : Int :=
  match indexFrom substr s 0 with
  | some i => (i : Int)
  | none => -1

/-- Go `strings.Contains`: `Index(s, substr) >= 0`. -/
def Contains (s substr : GoString) : Bool := decide (Index s substr ≥ 0)

/-- Go `strings.Cut`: the text before and after the first occurrence of `sep`, and whether
`sep` was found. -/
def Cut (s sep : GoString) : GoString × GoString × Bool :=
  match indexFrom sep s 0 with
  | some i => (s.take i, s.drop (i + sep.length), true)
  | none => (s, [], false)

/-- Go `strings.Count` for a separator of one byte. -/
def Count (s : GoString) (c : Byte) : Nat := s.count c

/-- Position of the last occurrence of the byte `c`, counting positions from `i`. -/
def lastIndexFrom (c : Byte) : GoString → Nat → Option Nat
  | [], _ => none
  | b :: s, i =>
    match lastIndexFrom c s (i + 1) with
    | some j => some j
    | none => if b = c then some i else none

/-- Go `strings.LastIndex` for a separator of one byte, `none` standing for `-1`. -/
def LastIndexByte (s : GoString) (c : Byte) : Option Nat := lastIndexFrom c s 0

/-- Go `strings.ToLower` on ASCII text (it is only applied to URL schemes, which are ASCII). -/
def ToLower (s : GoString) : GoString :=
  s.map (fun b => if 65 ≤ b.val ∧ b.val ≤ 90 then Fin.ofNat (b.val + 32) else b)

/-- Go `strconv.Itoa` / the `%d` verb of `fmt`: decimal text of an integer. -/
def Itoa (n : Int) : GoString :=
  match n with
  | Int.ofNat m => (Nat.toDigits 10 m).map (fun c => Fin.ofNat c.toNat)
  | Int.negSucc m => 45 :: (Nat.toDigits 10 (m + 1)).map (fun c => Fin.ofNat c.toNat)

/-! ## Package `net/url`: escaping -/

/-- The `encoding` modes of `net/url`. -/
inductive encoding where
  | encodePath
  | encodePathSegment
  | encodeHost
  | encodeZone
  | encodeUserPassword
  | encodeQueryComponent
  | encodeFragment
  deriving DecidableEq, Repr

/-- ASCII letters and digits. -/
def isAlnum (c : Byte) : Bool :=
  (97 ≤ c.val && c.val ≤ 122) || (65 ≤ c.val && c.val ≤ 90) || (48 ≤ c.val && c.val ≤ 57)

/-- Go `url.shouldEscape`: whether byte `c` must be percent-encoded in the given mode. -/
def shouldEscape (c : Byte) (mode : encoding) : Bool :=
  if isAlnum c then false
  else if (mode = .encodeHost ∨ mode = .encodeZone) ∧
      c.val ∈ [33, 36, 38, 39, 40, 41, 42, 43, 44, 59, 61, 58, 91, 93, 60, 62, 34] then false
  else if c.val ∈ [45, 95, 46, 126] then false
  else if c.val ∈ [36, 38, 43, 44, 47, 58, 59, 61, 63, 64] ∧ mode = .encodePath then c.val = 63
  else if c.val ∈ [36, 38, 43, 44, 47, 58, 59, 61, 63, 64] ∧ mode = .encodePathSegment then
    c.val ∈ [47, 59, 44, 63]
  else if c.val ∈ [36, 38, 43, 44, 47, 58, 59, 61, 63, 64] ∧ mode = .encodeUserPassword then
    c.val ∈ [64, 47, 63, 58]
  else if c.val ∈ [36, 38, 43, 44, 47, 58, 59, 61, 63, 64] ∧ mode = .encodeQueryComponent then true
  else if c.val ∈ [36, 38, 43, 44, 47, 58, 59, 61, 63, 64] ∧ mode = .encodeFragment then false
  else if mode = .encodeFragment ∧ c.val ∈ [33, 40, 41, 42] then false
  else true

/-- Go `url.ishex`. -/
def ishex (c : Byte) : Bool :=
  (48 ≤ c.val && c.val ≤ 57) || (97 ≤ c.val && c.val ≤ 102) || (65 ≤ c.val && c.val ≤ 70)

/-- Go `url.unhex`. -/
def unhex (c : Byte) : Nat :=
  if 48 ≤ c.val ∧ c.val ≤ 57 then c.val - 48
  else if 97 ≤ c.val ∧ c.val ≤ 102 then c.val - 97 + 10
  else if 65 ≤ c.val ∧ c.val ≤ 70 then c.val - 65 + 10
  else 0

/-- The table `upperhex = "0123456789ABCDEF"` indexed by a nibble. -/
def upperhex (n : Nat) : Byte :=
  if n < 10 then Fin.ofNat (48 + n) else Fin.ofNat (65 + (n - 10))

/-- Go `url.escape`: a space becomes `+` in query components, a byte that `shouldEscape`
becomes `%XX` in upper-case hexadecimal, any other byte is copied. -/
def escape (s : GoString) (mode : encoding) : GoString :=
  match s with
  | [] => []
  | c :: rest =>
    if c = 32 ∧ mode = .encodeQueryComponent then 43 :: escape rest mode
    else if shouldEscape c mode then
      37 :: upperhex (c.val / 16) :: upperhex (c.val % 16) :: escape rest mode
    else c :: escape rest mode

/-- Go `url.unescape`: checks that every `%` is followed by two hexadecimal digits (and the
host and zone restrictions), then decodes `%XX` and, in query components, `+`. -/
def unescape (s : GoString) (mode : encoding) : Except GoError GoString :=
  match s with
  | [] => .ok []
  | c :: rest =>
    if c = 37 then
      match rest with
      | h1 :: h2 :: rest2 =>
        if !ishex h1 || !ishex h2 then .error (.EscapeError (c :: h1 :: [h2]))
        else if mode = .encodeHost ∧ unhex h1 < 8 ∧ ¬ (h1 = 50 ∧ h2 = 53) then
          .error (.EscapeError (c :: h1 :: [h2]))
        else if mode = .encodeZone ∧ ¬ (h1 = 50 ∧ h2 = 53) ∧ unhex h1 * 16 + unhex h2 ≠ 32 ∧
            shouldEscape (Fin.ofNat (unhex h1 * 16 + unhex h2)) .encodeHost then
          .error (.EscapeError (c :: h1 :: [h2]))
        else
          match unescape rest2 mode with
          | .ok t => .ok (Fin.ofNat (unhex h1 * 16 + unhex h2) :: t)
          | .error e => .error e
      | _ => .error (.EscapeError (c :: rest))
    else if c = 43 then
      match unescape rest mode with
      | .ok t => .ok ((if mode = .encodeQueryComponent then 32 else 43) :: t)
      | .error e => .error e
    else if (mode = .encodeHost ∨ mode = .encodeZone) ∧ c.val < 128 ∧ shouldEscape c .encodeHost then
      .error (.InvalidHostError [c])
    else
      match unescape rest mode with
      | .ok t => .ok (c :: t)
      | .error e => .error e

/-- Go `url.QueryEscape`. -/
def QueryEscape (s : GoString) : GoString := escape s .encodeQueryComponent

/-- Go `url.QueryUnescape`. -/
def QueryUnescape (s : GoString) : Except GoError GoString := unescape s .encodeQueryComponent


/-! ## Package `net/url`: query values -/

/-- Go `url.Values`, a `map[string][]string`, as an association list with distinct keys. -/
abbrev Values := List (GoString × List GoString)

/-- Go `Values.Set`: replaces any existing values of `key` by the single `value`. -/
def Values.Set (v : Values) (key value : GoString) : Values :=
  match v with
  | [] => [(key, [value])]
  | (k, vs) :: rest =>
    if k = key then (key, [value]) :: rest else (k, vs) :: Values.Set rest key value

/-- Map lookup `v[key]`, the empty slice when the key is absent. -/
def Values.lookup (v : Values) (key : GoString) : List GoString :=
  match v with
  | [] => []
  | (k, vs) :: rest => if k = key then vs else Values.lookup rest key

/-- Go `Values.Has`: whether the key is present. -/
def Values.Has (v : Values) (key : GoString) : Bool :=
  match v with
  | [] => false
  | (k, _) :: rest => if k = key then true else Values.Has rest key

/-- Go `Values.Get`: the first value of the key, or the empty string. -/
def Values.Get (v : Values) (key : GoString) : GoString :=
  match Values.lookup v key with
  | [] => []
  | x :: _ => x

/-- Map update `v[key] = append(v[key], value)`. -/
def Values.Add (v : Values) (key value : GoString) : Values :=
  match v with
  | [] => [(key, [value])]
  | (k, vs) :: rest =>
    if k = key then (k, vs ++ [value]) :: rest else (k, vs) :: Values.Add rest key value

/-- Go's `<` on strings: lexicographic order on bytes. -/
def strLess : GoString → GoString → Bool
  | [], [] => false
  | [], _ :: _ => true
  | _ :: _, [] => false
  | a :: s, b :: t => if a.val < b.val then true else if b.val < a.val then false else strLess s t

/-- Insertion of a key into a sorted list of keys. -/
def insertKey (k : GoString) : List GoString → List GoString
  | [] => [k]
  | x :: xs => if strLess x k then x :: insertKey k xs else k :: x :: xs

/-- Go `slices.Sort` on a slice of strings. -/
def sortStrings (ks : List GoString) : List GoString := ks.foldr insertKey []

/-- Inner loop of `Values.Encode`: appends `key=value` for every value of one key,
preceded by `&` when the buffer is not empty. -/
def encodeValues (keyEscaped : GoString) : List GoString → GoString → GoString
  | [], buf => buf
  | x :: xs, buf =>
    encodeValues keyEscaped xs
      ((if buf.length > 0 then buf ++ [38] else buf) ++ keyEscaped ++ [61] ++ QueryEscape x)

/-- Outer loop of `Values.Encode` over the sorted keys. -/
def encodeKeys (v : Values) : List GoString → GoString → GoString
  | [], buf => buf
  | k :: ks, buf => encodeKeys v ks (encodeValues (QueryEscape k) (Values.lookup v k) buf)

/-- Go `Values.Encode`: the values in "URL encoded" form, sorted by key. -/
def Values.Encode (v : Values) : GoString :=
  if v.length = 0 then [] else encodeKeys v (sortStrings (v.map Prod.fst)) []

/-- Splitting of a string at every occurrence of the byte `sep`. -/
def splitByte (sep : Byte) : GoString → List GoString
  | [] => [[]]
  | b :: s =>
    if b = sep then [] :: splitByte sep s
    else
      match splitByte sep s with
      | [] => [[b]]
      | x :: xs => (b :: x) :: xs

/-- Body of the loop of `url.parseQuery` for one `&`-separated piece: the updated map and
the first error so far. -/
def parseQueryPiece (acc : Values × Option GoError) (piece : GoString) : Values × Option GoError :=
  if Contains piece [59] then
    (acc.1, some (.errorString (lit "invalid semicolon separator in query")))
  else if piece = [] then acc
  else
    match QueryUnescape (Cut piece [61]).1 with
    | .error e1 => (acc.1, if acc.2 = none then some e1 else acc.2)
    | .ok key =>
      match QueryUnescape (Cut piece [61]).2.1 with
      | .error e1 => (acc.1, if acc.2 = none then some e1 else acc.2)
      | .ok value => (Values.Add acc.1 key value, acc.2)

/-- Go `url.ParseQuery`: the map of the query parameters (standard query decoding), with the
error the library reports alongside. The pieces `strings.Cut(query, "&")` yields in turn
are those of `splitByte`. -/
def ParseQuery (query : GoString) : Values × Option GoError :=
  if query = [] then ([], none) else (splitByte 38 query).foldl parseQueryPiece ([], none)

/-! ## Package `net/url`: URLs -/

/-- The fields of `url.URL` (`User` is always nil in this model and is left out). -/
structure URL where
  Scheme : GoString := []
  Opaque : GoString := []
  Host : GoString := []
  Path : GoString := []
  RawPath : GoString := []
  OmitHost : Bool := false
  ForceQuery : Bool := false
  RawQuery : GoString := []
  Fragment : GoString := []
  RawFragment : GoString := []
  deriving DecidableEq, Repr

/-- Go `url.stringContainsCTLByte`. -/
def stringContainsCTLByte (s : GoString) : Bool := s.any (fun b => b.val < 32 || b.val = 127)

/-- Loop of `url.getScheme` at position `i`, with `rest = rawURL[i:]`. -/
def getSchemeLoop (rawURL : GoString) : GoString → Nat → Except GoError (GoString × GoString)
  | [], _ => .ok ([], rawURL)
  | c :: rest, i =>
    if (97 ≤ c.val ∧ c.val ≤ 122) ∨ (65 ≤ c.val ∧ c.val ≤ 90) then getSchemeLoop rawURL rest (i + 1)
    else if (48 ≤ c.val ∧ c.val ≤ 57) ∨ c = 43 ∨ c = 45 ∨ c = 46 then
      if i = 0 then .ok ([], rawURL) else getSchemeLoop rawURL rest (i + 1)
    else if c = 58 then
      if i = 0 then .error (.errorString (lit "missing protocol scheme"))
      else .ok (rawURL.take i, rest)
    else .ok ([], rawURL)

/-- Go `url.getScheme`: splits `scheme:rest`. -/
def getScheme (rawURL : GoString) : Except GoError (GoString × GoString) :=
  getSchemeLoop rawURL rawURL 0

/-- Go `url.validOptionalPort`: empty, or `:` followed by digits. -/
def validOptionalPort (port : GoString) : Bool :=
  match port with
  | [] => true
  | c :: ds => c = 58 && ds.all (fun b => 48 ≤ b.val && b.val ≤ 57)

/-- Go `url.parseHost` for hosts that are not bracketed IP literals. A host starting with `[`
is outside this model, which reports an error for it; the client never builds one. -/
def parseHost (host : GoString) : Except GoError GoString :=
  if HasPrefix host [91] then .error (.errorString (lit "bracketed host: not modelled"))
  else
    match LastIndexByte host 58 with
    | some i =>
      if !validOptionalPort (host.drop i) then
        .error (.errorString (lit "invalid port after host"))
      else unescape host .encodeHost
    | none => unescape host .encodeHost

/-- Go `url.parseAuthority` for authorities without user information. An authority with `@`
is outside this model, which reports an error for it; the client never builds one. -/
def parseAuthority (authority : GoString) : Except GoError GoString :=
  match LastIndexByte authority 64 with
  | some _ => .error (.errorString (lit "userinfo: not modelled"))
  | none => parseHost authority

/-- Go `URL.setPath`: sets `Path` and, when the default encoding differs, `RawPath`. -/
def URL.setPath (u : URL) (p : GoString) : Except GoError URL :=
  match unescape p .encodePath with
  | .error e => .error e
  | .ok path =>
    if p = escape path .encodePath then .ok { u with Path := path, RawPath := [] }
    else .ok { u with Path := path, RawPath := p }

/-- Go `URL.setFragment`: like `setPath`, for the fragment. -/
def URL.setFragment (u : URL) (f : GoString) : Except GoError URL :=
  match unescape f .encodeFragment with
  | .error e => .error e
  | .ok frag =>
    if f = escape frag .encodeFragment then .ok { u with Fragment := frag, RawFragment := [] }
    else .ok { u with Fragment := frag, RawFragment := f }

/-- The function `url.parse(rawURL, viaRequest)` with `viaRequest = false`. -/
def parse (rawURL : GoString) : Except GoError URL :=
  if stringContainsCTLByte rawURL then
    .error (.errorString (lit "net/url: invalid control character in URL"))
  else if rawURL = [42] then .ok { Path := [42] }
  else
    match getScheme rawURL with
    | .error e => .error e
    | .ok (scheme0, rest0) =>
      let scheme := ToLower scheme0
      let forceQuery : Bool := HasSuffix rest0 [63] && decide (Count rest0 63 = 1)
      let rest1 : GoString := if forceQuery then rest0.take (rest0.length - 1) else (Cut rest0 [63]).1
      let rawQuery : GoString := if forceQuery then [] else (Cut rest0 [63]).2.1
      let url : URL := { Scheme := scheme, ForceQuery := forceQuery, RawQuery := rawQuery }
      if !HasPrefix rest1 [47] && scheme ≠ [] then .ok { url with Opaque := rest1 }
      else if !HasPrefix rest1 [47] && Contains (Cut rest1 [47]).1 [58] then
        .error (.errorString (lit "first path segment in URL cannot contain colon"))
      else if (scheme ≠ [] || !HasPrefix rest1 [47, 47, 47]) && HasPrefix rest1 [47, 47] then
        let authority0 := rest1.drop 2
        let authority : GoString :=
          match indexFrom [47] authority0 0 with
          | some i => authority0.take i
          | none => authority0
        let rest2 : GoString :=
          match indexFrom [47] authority0 0 with
          | some i => authority0.drop i
          | none => []
        match parseAuthority authority with
        | .error e => .error e
        | .ok host => URL.setPath { url with Host := host } rest2
      else if scheme ≠ [] && HasPrefix rest1 [47] then
        URL.setPath { url with OmitHost := true } rest1
      else URL.setPath url rest1

/-- Go `url.Parse`: cuts the fragment off, parses the rest and sets the fragment. -/
def Parse (rawURL : GoString) : Except GoError URL :=
  match parse (Cut rawURL [35]).1 with
  | .error e => .error (.urlError (lit "parse") (Cut rawURL [35]).1 e)
  | .ok url =>
    if (Cut rawURL [35]).2.1 = [] then .ok url
    else
      match URL.setFragment url (Cut rawURL [35]).2.1 with
      | .error e => .error (.urlError (lit "parse") rawURL e)
      | .ok url2 => .ok url2

/-- Go `url.validEncoded`. -/
def validEncoded (s : GoString) (mode : encoding) : Bool :=
  s.all (fun c =>
    if c.val ∈ [33, 36, 38, 39, 40, 41, 42, 43, 44, 59, 61, 58, 64] then true
    else if c.val ∈ [91, 93] then true
    else if c.val = 37 then true
    else !shouldEscape c mode)

/-- Whether `unescape(raw, mode)` succeeds with the result `want`. -/
def unescapesTo (raw : GoString) (mode : encoding) (want : GoString) : Bool :=
  match unescape raw mode with
  | .ok p => p == want
  | .error _ => false

/-- Go `URL.EscapedPath`. -/
def URL.EscapedPath (u : URL) : GoString :=
  if u.RawPath ≠ [] ∧ validEncoded u.RawPath .encodePath ∧
      unescapesTo u.RawPath .encodePath u.Path then u.RawPath
  else if u.Path = [42] then [42]
  else escape u.Path .encodePath

/-- Go `URL.EscapedFragment`. -/
def URL.EscapedFragment (u : URL) : GoString :=
  if u.RawFragment ≠ [] ∧ validEncoded u.RawFragment .encodeFragment ∧
      unescapesTo u.RawFragment .encodeFragment u.Fragment then u.RawFragment
  else escape u.Fragment .encodeFragment

/-- Go `URL.String` for a URL without user information: reassembles
`scheme:opaque?query#fragment` or `scheme://host/path?query#fragment`. -/
def URL.String (u : URL) : GoString :=
  let b1 : GoString := if u.Scheme ≠ [] then u.Scheme ++ [58] else []
  let b2 : GoString :=
    if u.Opaque ≠ [] then b1 ++ u.Opaque
    else
      let b3 : GoString :=
        if u.Scheme ≠ [] ∨ u.Host ≠ [] then
          if u.OmitHost ∧ u.Host = [] then b1
          else
            (if u.Host ≠ [] ∨ u.Path ≠ [] then b1 ++ [47, 47] else b1) ++
              (if u.Host ≠ [] then escape u.Host .encodeHost else [])
        else b1
      let path := URL.EscapedPath u
      let b4 : GoString :=
        if path ≠ [] ∧ path.head? ≠ some 47 ∧ u.Host ≠ [] then b3 ++ [47] else b3
      let b5 : GoString :=
        if b4.length = 0 ∧ Contains (Cut path [47]).1 [58] then b4 ++ [46, 47] else b4
      b5 ++ path
  let b6 : GoString := if u.ForceQuery ∨ u.RawQuery ≠ [] then b2 ++ [63] ++ u.RawQuery else b2
  if u.Fragment ≠ [] then b6 ++ [35] ++ URL.EscapedFragment u else b6


/-! ## Package `encoding/json`: syntax -/

/-- A JSON value as the decoder sees it after the syntax check: numbers keep their literal
text, strings and object keys are unquoted, object members keep their order. -/
inductive JSON where
  | null
  | bool (b : Bool)
  | number (text : GoString)
  | string (s : GoString)
  | array (elems : List JSON)
  | object (members : List (GoString × JSON))

/-- Go `json.isSpace`: space, tab, carriage return, line feed. -/
def isSpace (c : Byte) : Bool := c = 32 || c = 9 || c = 13 || c = 10

/-- Skips the white space the scanner ignores between tokens. -/
def skipSpace : GoString → GoString
  | [] => []
  | c :: s => if isSpace c then skipSpace s else c :: s

/-- Continuation byte of UTF-8, `0x80..0xBF`. -/
def isCont (b : Byte) : Bool := 128 ≤ b.val && b.val ≤ 191

/-- Size found by `utf8.DecodeRune` at the head of `s` when the head is a well-formed
encoding (1 to 4), and `0` when it is not (Go then yields `RuneError` with size 1). -/
def utf8Len (s : GoString) : Nat :=
  match s with
  | [] => 0
  | b0 :: t =>
    if b0.val < 128 then 1
    else if 194 ≤ b0.val ∧ b0.val ≤ 223 then
      match t with
      | b1 :: _ => if isCont b1 then 2 else 0
      | _ => 0
    else if 224 ≤ b0.val ∧ b0.val ≤ 239 then
      match t with
      | b1 :: b2 :: _ =>
        if (if b0.val = 224 then 160 else 128) ≤ b1.val ∧
            b1.val ≤ (if b0.val = 237 then 159 else 191) ∧ isCont b2 then 3 else 0
      | _ => 0
    else if 240 ≤ b0.val ∧ b0.val ≤ 244 then
      match t with
      | b1 :: b2 :: b3 :: _ =>
        if (if b0.val = 240 then 144 else 128) ≤ b1.val ∧
            b1.val ≤ (if b0.val = 244 then 143 else 191) ∧ isCont b2 ∧ isCont b3 then 4 else 0
      | _ => 0
    else 0

/-- Go `utf8.EncodeRune`: the encoding of a code point, `U+FFFD` for a surrogate or a value
out of range. -/
def EncodeRune (r : Nat) : GoString :=
  if r < 128 then [Fin.ofNat r]
  else if r < 2048 then [Fin.ofNat (192 + r / 64), Fin.ofNat (128 + r % 64)]
  else if (55296 ≤ r ∧ r < 57344) ∨ 1114111 < r then [239, 191, 189]
  else if r < 65536 then
    [Fin.ofNat (224 + r / 4096), Fin.ofNat (128 + r / 64 % 64), Fin.ofNat (128 + r % 64)]
  else
    [Fin.ofNat (240 + r / 262144), Fin.ofNat (128 + r / 4096 % 64),
      Fin.ofNat (128 + r / 64 % 64), Fin.ofNat (128 + r % 64)]

/-- Go `json.getu4` on the four bytes after a reverse solidus and `u`: their hexadecimal value. -/
def getu4 (s : GoString) : Option (Nat × GoString) :=
  match s with
  | a :: b :: c :: d :: rest =>
    if ishex a && ishex b && ishex c && ishex d then
      some (((unhex a * 16 + unhex b) * 16 + unhex c) * 16 + unhex d, rest)
    else none
  | _ => none

/-- Prepends bytes to the text of a scanned string. -/
def prepend (pre : GoString) (r : Option (GoString × GoString)) : Option (GoString × GoString) :=
  match r with
  | some (t, rest) => some (pre ++ t, rest)
  | none => none

/-- The scanner states `stateInString`, `stateInStringEsc...` together with
`json.unquoteBytes`: reads a string after its opening quote and returns the unquoted text
and the input after the closing quote. Ill-formed UTF-8 and lone surrogates become
`U+FFFD`; a control byte or a bad escape is a syntax error. -/
def scanString : Nat → GoString → Option (GoString × GoString)
  | 0, _ => none
  | fuel + 1, s =>
    match s with
    | [] => none
    | c :: rest =>
      if c = 34 then some ([], rest)
      else if c = 92 then
        match rest with
        | [] => none
        | e :: rest2 =>
          if e = 34 ∨ e = 92 ∨ e = 47 then prepend [e] (scanString fuel rest2)
          else if e = 98 then prepend [8] (scanString fuel rest2)
          else if e = 102 then prepend [12] (scanString fuel rest2)
          else if e = 110 then prepend [10] (scanString fuel rest2)
          else if e = 114 then prepend [13] (scanString fuel rest2)
          else if e = 116 then prepend [9] (scanString fuel rest2)
          else if e = 117 then
            match getu4 rest2 with
            | none => none
            | some (rr, rest3) =>
              if 55296 ≤ rr ∧ rr < 57344 then
                match rest3 with
                | 92 :: 117 :: rest4 =>
                  match getu4 rest4 with
                  | some (rr1, rest5) =>
                    if rr < 56320 ∧ 56320 ≤ rr1 ∧ rr1 < 57344 then
                      prepend (EncodeRune ((rr - 55296) * 1024 + (rr1 - 56320) + 65536))
                        (scanString fuel rest5)
                    else prepend [239, 191, 189] (scanString fuel rest3)
                  | none => prepend [239, 191, 189] (scanString fuel rest3)
                | _ => prepend [239, 191, 189] (scanString fuel rest3)
              else prepend (EncodeRune rr) (scanString fuel rest3)
          else none
      else if c.val < 32 then none
      else if c.val < 128 then prepend [c] (scanString fuel rest)
      else
        match utf8Len (c :: rest) with
        | 0 => prepend [239, 191, 189] (scanString fuel rest)
        | n + 1 => prepend ((c :: rest).take (n + 1)) (scanString fuel ((c :: rest).drop (n + 1)))

/-- The longest prefix of decimal digits and the rest. -/
def takeDigits : GoString → GoString × GoString
  | [] => ([], [])
  | c :: s =>
    if 48 ≤ c.val ∧ c.val ≤ 57 then ((c :: (takeDigits s).1), (takeDigits s).2) else ([], c :: s)

/-- Exponent part of a number (scanner states `stateE`, `stateESign`, `stateE0`), if any. -/
def scanExp (s : GoString) : Option (GoString × GoString) :=
  match s with
  | e :: t =>
    if e = 101 ∨ e = 69 then
      match t with
      | sg :: t2 =>
        if sg = 43 ∨ sg = 45 then
          if (takeDigits t2).1 = [] then none
          else some (e :: sg :: (takeDigits t2).1, (takeDigits t2).2)
        else if (takeDigits t).1 = [] then none
        else some (e :: (takeDigits t).1, (takeDigits t).2)
      | [] => none
    else some ([], s)
  | [] => some ([], s)

/-- Fraction part of a number (scanner states `stateDot`, `stateDot0`), if any. -/
def scanFrac (s : GoString) : Option (GoString × GoString) :=
  match s with
  | 46 :: t => if (takeDigits t).1 = [] then none else some (46 :: (takeDigits t).1, (takeDigits t).2)
  | _ => some ([], s)

/-- Integer part of a number (scanner states `state0`, `state1`): `0` or a digit from 1 to 9
followed by digits. -/
def scanIntPart (s : GoString) : Option (GoString × GoString) :=
  match s with
  | d :: t =>
    if d = 48 then some ([48], t)
    else if 49 ≤ d.val ∧ d.val ≤ 57 then some (d :: (takeDigits t).1, (takeDigits t).2)
    else none
  | [] => none

/-- A number literal: its text and the input after it. -/
def scanNumber (s : GoString) : Option (GoString × GoString) :=
  let sign : GoString := if s.head? = some 45 then [45] else []
  let s1 : GoString := if s.head? = some 45 then s.drop 1 else s
  match scanIntPart s1 with
  | none => none
  | some (ip, r1) =>
    match scanFrac r1 with
    | none => none
    | some (fp, r2) =>
      match scanExp r2 with
      | none => none
      | some (ep, r3) => some (sign ++ ip ++ fp ++ ep, r3)

/-- Go `json.maxNestingDepth`. -/
def maxNestingDepth : Nat := 10000

mutual
/-- One JSON value (scanner state `stateBeginValue`) at nesting depth `depth`: the value and
the input after it. -/
def parseValue : Nat → Nat → GoString → Option (JSON × GoString)
  | 0, _, _ => none
  | fuel + 1, depth, s =>
    match skipSpace s with
    | [] => none
    | c :: rest =>
      if c = 123 then
        if depth + 1 > maxNestingDepth then none
        else
          match skipSpace rest with
          | 125 :: rest2 => some (.object [], rest2)
          | _ =>
            match parseMembers fuel (depth + 1) rest with
            | some (ms, rest2) => some (.object ms, rest2)
            | none => none
      else if c = 91 then
        if depth + 1 > maxNestingDepth then none
        else
          match skipSpace rest with
          | 93 :: rest2 => some (.array [], rest2)
          | _ =>
            match parseElems fuel (depth + 1) rest with
            | some (vs, rest2) => some (.array vs, rest2)
            | none => none
      else if c = 34 then
        match scanString (rest.length + 1) rest with
        | some (t, rest2) => some (.string t, rest2)
        | none => none
      else if c = 45 ∨ (48 ≤ c.val ∧ c.val ≤ 57) then
        match scanNumber (c :: rest) with
        | some (t, rest2) => some (.number t, rest2)
        | none => none
      else if HasPrefix (c :: rest) (lit "true") then some (.bool true, rest.drop 3)
      else if HasPrefix (c :: rest) (lit "false") then some (.bool false, rest.drop 4)
      else if HasPrefix (c :: rest) (lit "null") then some (.null, rest.drop 3)
      else none
/-- The elements of a non-empty array up to its closing bracket. -/
def parseElems : Nat → Nat → GoString → Option (List JSON × GoString)
  | 0, _, _ => none
  | fuel + 1, depth, s =>
    match parseValue fuel depth s with
    | none => none
    | some (v, rest) =>
      match skipSpace rest with
      | 44 :: rest2 =>
        match parseElems fuel depth rest2 with
        | some (vs, rest3) => some (v :: vs, rest3)
        | none => none
      | 93 :: rest2 => some ([v], rest2)
      | _ => none
/-- The members of a non-empty object up to its closing brace. -/
def parseMembers : Nat → Nat → GoString → Option (List (GoString × JSON) × GoString)
  | 0, _, _ => none
  | fuel + 1, depth, s =>
    match skipSpace s with
    | 34 :: rest =>
      match scanString (rest.length + 1) rest with
      | none => none
      | some (key, rest2) =>
        match skipSpace rest2 with
        | 58 :: rest3 =>
          match parseValue fuel depth rest3 with
          | none => none
          | some (v, rest4) =>
            match skipSpace rest4 with
            | 44 :: rest5 =>
              match parseMembers fuel depth rest5 with
              | some (ms, rest6) => some ((key, v) :: ms, rest6)
              | none => none
            | 125 :: rest5 => some ([(key, v)], rest5)
            | _ => none
        | _ => none
    | _ => none
end

/-- Go `json.checkValid` together with the reading of the value: the whole input must be one
JSON value surrounded by white space. The fuel bounds the nesting of the calls of
`parseValue`, `parseElems` and `parseMembers`; any two nested calls consume at least one
byte, so `2 * len + 2` is never exhausted on an input of `len` bytes. -/
def checkValid (data : GoString) : Option JSON :=
  match parseValue (2 * data.length + 2) 0 data with
  | some (v, rest) => if skipSpace rest = [] then some v else none
  | none => none


/-! ## The record type and its decoding -/

/-- The struct `CertificateRecord`: a record in the crt.sh database. `int64` fields are integers (the
decoder only stores values within the range of `int64`). -/
structure CertificateRecord where
  IssuerCAID : Int := 0
  IssuerName : GoString := []
  CommonName : GoString := []
  NameValue : GoString := []
  ID : Int := 0
  EntryTimestamp : GoString := []
  NotBefore : GoString := []
  NotAfter : GoString := []
  SerialNumber : GoString := []
  ResultCount : Int := 0
  deriving DecidableEq, Repr

/-- The fields of `CertificateRecord`. -/
inductive Field where
  | IssuerCAID
  | IssuerName
  | CommonName
  | NameValue
  | ID
  | EntryTimestamp
  | NotBefore
  | NotAfter
  | SerialNumber
  | ResultCount
  deriving DecidableEq, Repr

/-- The `json:"..."` tags of the struct, in the order of declaration. -/
def fieldTags : List (GoString × Field) :=
  [ (lit "issuer_ca_id", .IssuerCAID),
    (lit "issuer_name", .IssuerName),
    (lit "common_name", .CommonName),
    (lit "name_value", .NameValue),
    (lit "id", .ID),
    (lit "entry_timestamp", .EntryTimestamp),
    (lit "not_before", .NotBefore),
    (lit "not_after", .NotAfter),
    (lit "serial_number", .SerialNumber),
    (lit "result_count", .ResultCount) ]

/-- Go `json.foldName` as far as it matters for the comparison with an ASCII name: ASCII
letters become upper case, the Kelvin sign `U+212A` folds to `K` and the long s `U+017F`
to `S` (the two runes whose simple case folding reaches ASCII); any other byte is kept. -/
def foldName : GoString → GoString
  | [] => []
  | 226 :: 132 :: 170 :: s => 75 :: foldName s
  | 197 :: 191 :: s => 83 :: foldName s
  | c :: s => (if 97 ≤ c.val ∧ c.val ≤ 122 then Fin.ofNat (c.val - 32) else c) :: foldName s

/-- First tag equal to the key. -/
def exactField (key : GoString) : List (GoString × Field) → Option Field
  | [] => none
  | (tag, f) :: rest => if tag = key then some f else exactField key rest

/-- First tag equal to the key up to case folding. -/
def foldedField (key : GoString) : List (GoString × Field) → Option Field
  | [] => none
  | (tag, f) :: rest => if foldName tag = foldName key then some f else foldedField key rest

/-- The field an object key is stored in: an exact match of the tag is preferred, a
case-insensitive match is accepted, any other key is skipped. -/
def findField (key : GoString) : Option Field :=
  match exactField key fieldTags with
  | some f => some f
  | none => foldedField key fieldTags

/-- Value of a string of decimal digits. -/
def digitsValue : GoString → Nat → Nat
  | [], acc => acc
  | c :: s, acc => digitsValue s (acc * 10 + (c.val - 48))

/-- Go `strconv.ParseInt(s, 10, 64)`: an optional sign and decimal digits, within `int64`. -/
def ParseInt (s : GoString) : Option Int :=
  let neg : Bool := s.head? = some 45
  let ds : GoString := if s.head? = some 43 ∨ s.head? = some 45 then s.drop 1 else s
  if ds = [] ∨ ¬ ds.all (fun c => 48 ≤ c.val && c.val ≤ 57) then none
  else if ¬ neg ∧ digitsValue ds 0 ≥ 2 ^ 63 then none
  else if neg ∧ digitsValue ds 0 > 2 ^ 63 then none
  else some (if neg then - (digitsValue ds 0 : Int) else (digitsValue ds 0 : Int))

/-- Decoding of a JSON value into an `int64` field holding `old`: a number literal is
parsed by `ParseInt`, `null` leaves the field alone, anything else is an
`UnmarshalTypeError`. -/
def storeInt (v : JSON) (old : Int) : Except GoError Int :=
  match v with
  | .null => .ok old
  | .number text =>
    match ParseInt text with
    | some n => .ok n
    | none => .error (.UnmarshalTypeError (lit "number " ++ text))
  | .bool _ => .error (.UnmarshalTypeError (lit "bool"))
  | .string _ => .error (.UnmarshalTypeError (lit "string"))
  | .array _ => .error (.UnmarshalTypeError (lit "array"))
  | .object _ => .error (.UnmarshalTypeError (lit "object"))

/-- Decoding of a JSON value into a `string` field holding `old`. -/
def storeString (v : JSON) (old : GoString) : Except GoError GoString :=
  match v with
  | .null => .ok old
  | .string s => .ok s
  | .number _ => .error (.UnmarshalTypeError (lit "number"))
  | .bool _ => .error (.UnmarshalTypeError (lit "bool"))
  | .array _ => .error (.UnmarshalTypeError (lit "array"))
  | .object _ => .error (.UnmarshalTypeError (lit "object"))

/-- One member of an object decoded into the record. -/
def setMember (r : CertificateRecord) (key : GoString) (v : JSON) :
    Except GoError CertificateRecord :=
  match findField key with
  | none => .ok r
  | some .IssuerCAID => (storeInt v r.IssuerCAID).map (fun n => { r with IssuerCAID := n })
  | some .IssuerName => (storeString v r.IssuerName).map (fun t => { r with IssuerName := t })
  | some .CommonName => (storeString v r.CommonName).map (fun t => { r with CommonName := t })
  | some .NameValue => (storeString v r.NameValue).map (fun t => { r with NameValue := t })
  | some .ID => (storeInt v r.ID).map (fun n => { r with ID := n })
  | some .EntryTimestamp =>
    (storeString v r.EntryTimestamp).map (fun t => { r with EntryTimestamp := t })
  | some .NotBefore => (storeString v r.NotBefore).map (fun t => { r with NotBefore := t })
  | some .NotAfter => (storeString v r.NotAfter).map (fun t => { r with NotAfter := t })
  | some .SerialNumber => (storeString v r.SerialNumber).map (fun t => { r with SerialNumber := t })
  | some .ResultCount => (storeInt v r.ResultCount).map (fun n => { r with ResultCount := n })

/-- The members of an object decoded in order into the record (`decodeState.object` on a
struct); the first type error is the one reported. -/
def decodeMembers : List (GoString × JSON) → CertificateRecord → Except GoError CertificateRecord
  | [], r => .ok r
  | (key, v) :: ms, r =>
    match setMember r key v with
    | .error e => .error e
    | .ok r2 => decodeMembers ms r2

/-- One element of the array decoded into a fresh record. -/
def decodeElem (v : JSON) : Except GoError CertificateRecord :=
  match v with
  | .object ms => decodeMembers ms {}
  | .null => .ok {}
  | .number _ => .error (.UnmarshalTypeError (lit "number"))
  | .bool _ => .error (.UnmarshalTypeError (lit "bool"))
  | .string _ => .error (.UnmarshalTypeError (lit "string"))
  | .array _ => .error (.UnmarshalTypeError (lit "array"))

/-- The elements of an array decoded in order. -/
def decodeElems : List JSON → Except GoError (List CertificateRecord)
  | [] => .ok []
  | v :: vs =>
    match decodeElem v with
    | .error e => .error e
    | .ok r =>
      match decodeElems vs with
      | .error e => .error e
      | .ok rs => .ok (r :: rs)

/-- Decoding of a JSON value into a nil `[]CertificateRecord`; `none` is the nil slice. -/
def decodeRecords (v : JSON) : Except GoError (Option (List CertificateRecord)) :=
  match v with
  | .array vs =>
    match decodeElems vs with
    | .error e => .error e
    | .ok rs => .ok (some rs)
  | .null => .ok none
  | .object _ => .error (.UnmarshalTypeError (lit "object"))
  | .number _ => .error (.UnmarshalTypeError (lit "number"))
  | .bool _ => .error (.UnmarshalTypeError (lit "bool"))
  | .string _ => .error (.UnmarshalTypeError (lit "string"))

/-- Go `json.Unmarshal(data, &records)` with `records` a nil `[]CertificateRecord`: the syntax
check of the whole input, then the decoding. -/
def Unmarshal (data : GoString) : Except GoError (Option (List CertificateRecord)) :=
  match checkValid data with
  | none => .error .SyntaxError
  | some v => decodeRecords v

/-! ## Package `net/http` -/

/-- A non-nil `context.Context`. -/
structure Context where
  id : Nat
  deriving DecidableEq, Repr

/-- The fields of `http.Request` the client sets. -/
structure Request where
  ctx : Context
  Method : GoString
  URL : URL
  Header : Values
  Host : GoString
  deriving DecidableEq, Repr

/-- What the client reads of an `http.Response`: the status code and the result of
`io.ReadAll(resp.Body)`, the bytes read and the read error if any. -/
structure Response where
  StatusCode : Int
  Body : GoString
  BodyErr : Option GoError := none
  deriving DecidableEq, Repr

/-- The method `Do` of a non-nil `*http.Client`: the transport, an external collaborator. -/
abbrev HTTPClient := Request → Except GoError Response

/-- Go `httpguts.IsTokenRune` on bytes. -/
def isTokenByte (c : Byte) : Bool :=
  isAlnum c || c.val ∈ [33, 35, 36, 37, 38, 39, 42, 43, 45, 46, 94, 95, 96, 124, 126]

/-- Go `http.validMethod`. -/
def validMethod (method : GoString) : Bool := decide (method.length > 0) && method.all isTokenByte

/-- Go `http.removeEmptyPort`. -/
def removeEmptyPort (host : GoString) : GoString :=
  let hasPort : Bool :=
    match LastIndexByte host 58, LastIndexByte host 93 with
    | some i, some j => decide (i > j)
    | some _, none => true
    | none, _ => false
  if hasPort ∧ HasSuffix host [58] then host.take (host.length - 1) else host

/-- Go `http.NewRequestWithContext(ctx, method, url, nil)`; `ctx = none` is the nil context. -/
def NewRequestWithContext (ctx : Option Context) (method url : GoString) : Except GoError Request :=
  let method1 : GoString := if method = [] then lit "GET" else method
  if !validMethod method1 then .error (.errorString (lit "net/http: invalid method"))
  else
    match ctx with
    | none => .error (.errorString (lit "net/http: nil Context"))
    | some cx =>
      match Parse url with
      | .error e => .error e
      | .ok u =>
        .ok { ctx := cx, Method := method1, URL := { u with Host := removeEmptyPort u.Host },
              Header := [], Host := removeEmptyPort u.Host }

/-! ## The client of `crtsh.go` -/

/-- The constant `baseURL`. -/
def baseURL : GoString := lit "https://crt.sh"

/-- The constant `version`. -/
def version : GoString := lit "0.1.0"

/-- The constant `userAgent`. -/
def userAgent : GoString := lit "go-crtsh/" ++ version

/-- The struct `Client`: the main handler for crt.sh API interactions. -/
structure Client where
  client : HTTPClient
  baseURL : GoString

/-- The constructor `NewWithClient`: a client with a custom HTTP client, bound to `baseURL`. -/
def NewWithClient (httpClient : HTTPClient) : Client :=
  { client := httpClient, baseURL := baseURL }

/-- The constructor `New`: a client with default settings. The default `http.Client`, whose
timeout is 30 seconds, is a parameter of the model. -/
def New (defaultClient : HTTPClient) : Client :=
  { client := defaultClient, baseURL := baseURL }

/-- The struct `SearchOptions`: options for certificate searches. -/
structure SearchOptions where
  IncludeExpired : Bool := false
  Wildcard : Bool := false
  deriving DecidableEq, Repr

/-- The method `Client.buildURL`: the API URL with its query parameters; `opts = none` is the nil
pointer. -/
def Client.buildURL (c : Client) (domain : GoString) (opts : Option SearchOptions) :
    Except GoError GoString :=
  match Parse c.baseURL with
  | .error err => .error err
  | .ok u0 =>
    let u1 : URL := if u0.Path = [] then { u0 with Path := lit "/" } else u0
    let params0 : Values := Values.Set (Values.Set [] (lit "q") domain) (lit "output") (lit "json")
    let params : Values :=
      match opts with
      | some o => if !o.IncludeExpired then Values.Set params0 (lit "exclude") (lit "expired") else params0
      | none => params0
    .ok (URL.String { u1 with RawQuery := Values.Encode params })

/-- An observable effect of `Search`. -/
inductive Event where
  /-- The call `c.client.Do(req)`: the one network call. -/
  | Do (req : Request)
  /-- The call `json.Unmarshal(body, &records)`. -/
  | Unmarshal (body : GoString)
  deriving DecidableEq, Repr

/-- What a call of `Search` returns and does: the slice (`none` is nil), the error
(`none` is nil) and the effects in order. -/
structure Outcome where
  records : Option (List CertificateRecord)
  err : Option GoError
  trace : List Event
  deriving DecidableEq, Repr

/-- The method `Client.Search`: searches for certificates for the given domain. -/
def Client.Search (c : Client) (ctx : Option Context) (domain : GoString)
    (opts : Option SearchOptions) : Outcome :=
  if domain = [] then
    { records := none, err := some (.errorString (lit "domain cannot be empty")), trace := [] }
  else if Contains domain (lit " ") || HasPrefix domain (lit ".") || HasSuffix domain (lit ".") then
    { records := none, err := some (.errorString (lit "invalid domain format: " ++ domain)),
      trace := [] }
  else
    let wildcard : Bool :=
      match opts with
      | some o => o.Wildcard
      | none => false
    let searchDomain : GoString :=
      if wildcard && !Contains domain (lit "%") && !HasPrefix domain (lit "*.") then
        lit "%." ++ domain
      else domain
    match c.buildURL searchDomain opts with
    | .error err =>
      { records := none, err := some (.wrapError (lit "failed to build URL: ") err), trace := [] }
    | .ok apiURL =>
      match NewRequestWithContext ctx (lit "GET") apiURL with
      | .error err =>
        { records := none, err := some (.wrapError (lit "failed to create request: ") err),
          trace := [] }
      | .ok req0 =>
        let req : Request :=
          { req0 with
            Header := Values.Set (Values.Set req0.Header (lit "User-Agent") userAgent)
              (lit "Accept") (lit "application/json") }
        match c.client req with
        | .error err =>
          { records := none, err := some (.wrapError (lit "failed to execute request: ") err),
            trace := [.Do req] }
        | .ok resp =>
          if resp.StatusCode ≠ 200 then
            { records := none,
              err := some (.errorString
                (lit "API request failed with status " ++ Itoa resp.StatusCode ++ lit ": " ++
                  resp.Body)),
              trace := [.Do req] }
          else
            match resp.BodyErr with
            | some err =>
              { records := none,
                err := some (.wrapError (lit "failed to read response body: ") err),
                trace := [.Do req] }
            | none =>
              if resp.Body.length = 0 ∨ resp.Body = lit "[]" then
                { records := some [], err := none, trace := [.Do req] }
              else
                match Unmarshal resp.Body with
                | .error err =>
                  { records := none,
                    err := some (.wrapError (lit "failed to parse JSON response: ") err),
                    trace := [.Do req, .Unmarshal resp.Body] }
                | .ok records =>
                  { records := records, err := none, trace := [.Do req, .Unmarshal resp.Body] }

/-- The method `Client.BasicSearch`: a convenience method for basic searches. -/
def Client.BasicSearch (c : Client) (ctx : Option Context) (domain : GoString) : Outcome :=
  c.Search ctx domain none

/-- The method `Client.SearchWithWildcard`: a convenience method for wildcard searches. -/
def Client.SearchWithWildcard (c : Client) (ctx : Option Context) (domain : GoString)
    (includeExpired : Bool) : Outcome :=
  c.Search ctx domain (some { IncludeExpired := includeExpired, Wildcard := true })

/-! ## Definitions used to state the properties -/

/-- Bytes that `QueryEscape` can produce: letters, digits and `- _ . ~ % +`. -/
def querySafe (b : Byte) : Bool := isAlnum b || b.val ∈ [45, 95, 46, 126, 37, 43]

instance instDecidableEqExcept {ε α : Type} [DecidableEq ε] [DecidableEq α] :
    DecidableEq (Except ε α) := fun a b =>
  match a, b with
  | .ok x, .ok y => if h : x = y then isTrue (by rw [h]) else isFalse (fun e => h (by cases e; rfl))
  | .error x, .error y =>
    if h : x = y then isTrue (by rw [h]) else isFalse (fun e => h (by cases e; rfl))
  | .ok _, .error _ => isFalse (fun e => by cases e)
  | .error _, .ok _ => isFalse (fun e => by cases e)

/-- The query string `Values.Encode` yields for a search: `exclude=expired&` when expired
certificates are excluded, then `output=json&q=` and the escaped domain. -/
def searchQuery (domain : GoString) (exclude : Bool) : GoString :=
  (if exclude then lit "exclude=expired&" else []) ++ lit "output=json&q=" ++ QueryEscape domain

/-- The URL the fixed endpoint is parsed into. -/
def endpoint : URL := { Scheme := lit "https", Host := lit "crt.sh" }

/-- Whether `buildURL` adds `exclude=expired`: options are supplied and `IncludeExpired` is
false. -/
def excludes (opts : Option SearchOptions) : Bool :=
  match opts with
  | some o => !o.IncludeExpired
  | none => false


/-- Bytes of a search query: those of `QueryEscape` and the separators `&` and `=`. -/
def urlSafe (b : Byte) : Bool := querySafe b || b = 38 || b = 61

/-- A domain that passes the validation of `Search`: not empty, without a space, not
starting and not ending with a full stop. -/
def validDomain (domain : GoString) : Prop :=
  domain ≠ [] ∧ (32 : Byte) ∉ domain ∧ domain.head? ≠ some 46 ∧ domain.getLast? ≠ some 46

instance instDecidableValidDomain (domain : GoString) : Decidable (validDomain domain) := by
  unfold validDomain
  exact inferInstance

/-- The domain `Search` puts in the query: prefixed with `%.` for a wildcard search of a
domain without `%` and not starting with `*.`. -/
def searchDomain (domain : GoString) (opts : Option SearchOptions) : GoString :=
  match opts with
  | some o =>
    if o.Wildcard && !Contains domain (lit "%") && !HasPrefix domain (lit "*.") then
      lit "%." ++ domain
    else domain
  | none => domain

/-- The request `Search` hands to the HTTP client for a valid domain. -/
def searchRequest (cx : Context) (domain : GoString) (opts : Option SearchOptions) : Request :=
  { ctx := cx, Method := lit "GET",
    URL := { endpoint with
      Path := lit "/", RawQuery := searchQuery (searchDomain domain opts) (excludes opts) },
    Header := [(lit "User-Agent", [userAgent]), (lit "Accept", [lit "application/json"])],
    Host := lit "crt.sh" }

/-- What `Search` makes of the answer of the HTTP client to the request `req`. -/
def respond (req : Request) (answer : Except GoError Response) : Outcome :=
  match answer with
  | .error err =>
    { records := none, err := some (.wrapError (lit "failed to execute request: ") err),
      trace := [.Do req] }
  | .ok resp =>
    if resp.StatusCode ≠ 200 then
      { records := none,
        err := some (.errorString
          (lit "API request failed with status " ++ Itoa resp.StatusCode ++ lit ": " ++ resp.Body)),
        trace := [.Do req] }
    else
      match resp.BodyErr with
      | some err =>
        { records := none, err := some (.wrapError (lit "failed to read response body: ") err),
          trace := [.Do req] }
      | none =>
        if resp.Body.length = 0 ∨ resp.Body = lit "[]" then
          { records := some [], err := none, trace := [.Do req] }
        else
          match Unmarshal resp.Body with
          | .error err =>
            { records := none,
              err := some (.wrapError (lit "failed to parse JSON response: ") err),
              trace := [.Do req, .Unmarshal resp.Body] }
          | .ok records =>
            { records := records, err := none, trace := [.Do req, .Unmarshal resp.Body] }

/-- An HTTP client that answers every request with the given status and body. -/
def stub (code : Int) (body : GoString) : HTTPClient :=
  fun _ => .ok { StatusCode := code, Body := body }

/-- A service whose only certificate has expired: it answers `[]` to a query with an
`exclude` parameter and one record to a query without. -/
def expiredOnly : HTTPClient := fun req =>
  if Values.Has (ParseQuery req.URL.RawQuery).1 (lit "exclude") then
    .ok { StatusCode := 200, Body := lit "[]" }
  else .ok { StatusCode := 200, Body := lit "[\x7b\"id\": 1\x7d]" }

/-- Decimal digits of a natural number, most significant first; the fuel bounds the number of
digits. -/
def natDigits : Nat → Nat → GoString
  | 0, _ => []
  | fuel + 1, n =>
    if n < 10 then [Fin.ofNat (48 + n)]
    else natDigits fuel (n / 10) ++ [Fin.ofNat (48 + n % 10)]

/-- Decimal text of a natural number. -/
def decimalNat (n : Nat) : GoString := natDigits (n + 1) n

/-- Decimal text of an integer, with a minus sign when it is negative. -/
def decimal (n : Int) : GoString :=
  match n with
  | Int.ofNat m => decimalNat m
  | Int.negSucc m => 45 :: decimalNat (m + 1)

/-- A member of an object of the response: an integer key with its integer, a text key with
its string, or another key with any JSON value. -/
inductive Member where
  | int (key : GoString) (n : Int)
  | text (key : GoString) (s : GoString)
  | other (key : GoString) (v : JSON)

/-- The key of a member. -/
def Member.key : Member → GoString
  | .int key _ => key
  | .text key _ => key
  | .other key _ => key

/-- The JSON value of a member: an integer is written in decimal. -/
def Member.value : Member → JSON
  | .int _ n => .number (decimal n)
  | .text _ s => .string s
  | .other _ v => v

/-- The `i`-th object of the end-to-end scenario, `{"id": i, "common_name": "host-i"}`. -/
def scenarioObject (i : Nat) : GoString :=
  lit "\x7b\"id\": " ++ Itoa i ++ lit ", \"common_name\": \"host-" ++ Itoa i ++ lit "\"\x7d"

/-- The body of the end-to-end scenario: the JSON array of `scenarioObject 1` to
`scenarioObject n`. -/
def scenarioBody (n : Nat) : GoString :=
  lit "[" ++ (((List.range n).map (fun i => scenarioObject (i + 1))).intersperse (lit ",")).flatten ++
    lit "]"

/-- The record expected for `scenarioObject i`. -/
def scenarioRecord (i : Nat) : CertificateRecord :=
  { ID := (i : Int), CommonName := lit "host-" ++ Itoa i }


/-! ## Facts about the `strings` model -/

theorem indexFrom_single_not_mem (c : Byte) (s : GoString) (i : Nat) (h : c ∉ s) :
    indexFrom [c] s i = none := by
  induction s generalizing i with
  | nil => simp [indexFrom]
  | cons b s ih =>
    simp only [List.mem_cons, not_or] at h
    have hb : ¬ b = c := fun e => h.1 e.symm
    simp [indexFrom, HasPrefix, hb, ih (i + 1) h.2]

theorem indexFrom_single_append (c : Byte) (a b : GoString) (i : Nat) (h : c ∉ a) :
    indexFrom [c] (a ++ c :: b) i = some (i + a.length) := by
  induction a generalizing i with
  | nil => simp [indexFrom, HasPrefix]
  | cons x a ih =>
    simp only [List.mem_cons, not_or] at h
    have hb : ¬ x = c := fun e => h.1 e.symm
    simp [indexFrom, HasPrefix, hb, ih (i + 1) h.2]
    omega

theorem indexFrom_single_of_mem (c : Byte) (s : GoString) (i : Nat) (h : c ∈ s) :
    ∃ j, indexFrom [c] s i = some j := by
  induction s generalizing i with
  | nil => simp at h
  | cons b s ih =>
    by_cases hb : b = c
    · exact ⟨i, by simp [indexFrom, HasPrefix, hb]⟩
    · have hs : c ∈ s := by
        rcases List.mem_cons.mp h with e | e
        · exact absurd e.symm hb
        · exact e
      obtain ⟨j, hj⟩ := ih (i + 1) hs
      exact ⟨j, by simp [indexFrom, HasPrefix, hb, hj]⟩

theorem Contains_single (s : GoString) (c : Byte) : Contains s [c] = true ↔ c ∈ s := by
  constructor
  · intro h
    by_contra hn
    simp [Contains, Index, indexFrom_single_not_mem c s 0 hn] at h
  · intro h
    obtain ⟨j, hj⟩ := indexFrom_single_of_mem c s 0 h
    simp [Contains, Index, hj]

theorem Cut_single_append (c : Byte) (a b : GoString) (h : c ∉ a) :
    Cut (a ++ c :: b) [c] = (a, b, true) := by
  simp [Cut, indexFrom_single_append c a b 0 h]

theorem Cut_single_not_mem (c : Byte) (s : GoString) (h : c ∉ s) :
    Cut s [c] = (s, [], false) := by
  simp [Cut, indexFrom_single_not_mem c s 0 h]

theorem HasPrefix_single (s : GoString) (c : Byte) : HasPrefix s [c] = true ↔ s.head? = some c := by
  cases s with
  | nil => simp [HasPrefix]
  | cons b s => simp [HasPrefix]

theorem HasSuffix_single (s : GoString) (c : Byte) :
    HasSuffix s [c] = true ↔ s.getLast? = some c := by
  rcases List.eq_nil_or_concat s with rfl | ⟨t, b, rfl⟩
  · simp [HasSuffix]
  · simp [HasSuffix]

/-! ## Facts about query escaping -/

set_option maxRecDepth 100000 in
theorem hex_roundtrip : ∀ c : Byte,
    ishex (upperhex (c.val / 16)) = true ∧ ishex (upperhex (c.val % 16)) = true ∧
      (Fin.ofNat (unhex (upperhex (c.val / 16)) * 16 + unhex (upperhex (c.val % 16))) : Byte) = c ∧
      querySafe (upperhex (c.val / 16)) = true ∧ querySafe (upperhex (c.val % 16)) = true := by
  decide!

set_option maxRecDepth 100000 in
theorem unescaped_byte : ∀ c : Byte, shouldEscape c .encodeQueryComponent = false →
    c ≠ 37 ∧ c ≠ 43 ∧ querySafe c = true := by
  decide!

theorem QueryUnescape_QueryEscape (s : GoString) : QueryUnescape (QueryEscape s) = .ok s := by
  unfold QueryUnescape QueryEscape
  induction s with
  | nil => simp [escape, unescape]
  | cons c rest ih =>
    by_cases h32 : c = 32
    · subst h32
      rw [escape, unescape.eq_def]
      simp [ih]
    · by_cases hesc : shouldEscape c .encodeQueryComponent = true
      · obtain ⟨h1, h2, h3, -, -⟩ := hex_roundtrip c
        simp [escape, unescape, h32, hesc, h1, h2, h3, ih]
      · have hesc2 : shouldEscape c .encodeQueryComponent = false := by simpa using hesc
        obtain ⟨h1, h2, -⟩ := unescaped_byte c hesc2
        rw [escape, unescape.eq_def]
        simp [h32, hesc2, h1, h2, ih]

theorem QueryEscape_safe (s : GoString) : ∀ b ∈ QueryEscape s, querySafe b = true := by
  unfold QueryEscape
  induction s with
  | nil => simp [escape]
  | cons c rest ih =>
    intro b hb
    by_cases h32 : c = 32
    · subst h32
      simp [escape] at hb
      rcases hb with rfl | hb
      · decide
      · exact ih b hb
    · by_cases hesc : shouldEscape c .encodeQueryComponent = true
      · obtain ⟨-, -, -, h4, h5⟩ := hex_roundtrip c
        simp [escape, h32, hesc] at hb
        rcases hb with rfl | rfl | rfl | hb
        · decide
        · exact h4
        · exact h5
        · exact ih b hb
      · have hesc2 : shouldEscape c .encodeQueryComponent = false := by simpa using hesc
        obtain ⟨-, -, h3⟩ := unescaped_byte c hesc2
        simp [escape, h32, hesc2] at hb
        rcases hb with rfl | hb
        · exact h3
        · exact ih b hb

set_option maxRecDepth 100000 in
theorem querySafe_facts : ∀ b : Byte, querySafe b = true →
    b ≠ 38 ∧ b ≠ 61 ∧ b ≠ 59 ∧ b ≠ 35 ∧ b ≠ 63 ∧ (b.val < 32 || b.val = 127) = false := by
  decide!

theorem QueryEscape_not_mem (s : GoString) (c : Byte) (hc : querySafe c = false) :
    c ∉ QueryEscape s := by
  intro h
  have := QueryEscape_safe s c h
  rw [hc] at this
  exact Bool.noConfusion this


/-! ## Facts about the URL of a search -/

set_option maxRecDepth 100000 in
theorem Parse_baseURL : Parse baseURL = .ok endpoint := by decide!

set_option maxRecDepth 100000 in
theorem Encode_with_exclude (d : GoString) :
    Values.Encode (Values.Set (Values.Set (Values.Set [] (lit "q") d) (lit "output") (lit "json"))
      (lit "exclude") (lit "expired")) = searchQuery d true := by
  have e1 : lit "q" = [113] := by decide!
  have e2 : lit "output" = [111, 117, 116, 112, 117, 116] := by decide!
  have e3 : lit "exclude" = [101, 120, 99, 108, 117, 100, 101] := by decide!
  have e4 : lit "json" = [106, 115, 111, 110] := by decide!
  have e5 : lit "expired" = [101, 120, 112, 105, 114, 101, 100] := by decide!
  have e6 : lit "exclude=expired&" = [101, 120, 99, 108, 117, 100, 101, 61, 101, 120, 112, 105, 114, 101, 100, 38] := by decide!
  have e7 : lit "output=json&q=" = [111, 117, 116, 112, 117, 116, 61, 106, 115, 111, 110, 38, 113, 61] := by decide!
  rw [searchQuery, e1, e2, e3, e4, e5, e6, e7]
  simp +decide [Values.Set, Values.Encode, sortStrings, insertKey, strLess, encodeKeys, encodeValues,
    Values.lookup, QueryEscape, escape, shouldEscape, isAlnum]

set_option maxRecDepth 100000 in
theorem Encode_without_exclude (d : GoString) :
    Values.Encode (Values.Set (Values.Set [] (lit "q") d) (lit "output") (lit "json")) =
      searchQuery d false := by
  have e1 : lit "q" = [113] := by decide!
  have e2 : lit "output" = [111, 117, 116, 112, 117, 116] := by decide!
  have e4 : lit "json" = [106, 115, 111, 110] := by decide!
  have e7 : lit "output=json&q=" = [111, 117, 116, 112, 117, 116, 61, 106, 115, 111, 110, 38, 113, 61] := by decide!
  rw [searchQuery, e1, e2, e4, e7]
  simp +decide [Values.Set, Values.Encode, sortStrings, insertKey, strLess, encodeKeys, encodeValues,
    Values.lookup, QueryEscape, escape, shouldEscape, isAlnum]

theorem searchQuery_ne_nil (d : GoString) (e : Bool) : searchQuery d e ≠ [] := by
  have e7 : lit "output=json&q=" = [111, 117, 116, 112, 117, 116, 61, 106, 115, 111, 110, 38, 113, 61] := by decide!
  cases e <;> simp [searchQuery, e7]

set_option maxRecDepth 100000 in
theorem String_endpoint (q : GoString) (hq : q ≠ []) :
    URL.String { endpoint with Path := lit "/", RawQuery := q } = lit "https://crt.sh/?" ++ q := by
  have e1 : lit "/" = [47] := by decide!
  have e2 : lit "https" = [104, 116, 116, 112, 115] := by decide!
  have e3 : lit "crt.sh" = [99, 114, 116, 46, 115, 104] := by decide!
  have e4 : lit "https://crt.sh/?" = [104, 116, 116, 112, 115, 58, 47, 47, 99, 114, 116, 46, 115, 104, 47, 63] := by decide!
  rw [e4]
  simp +decide [URL.String, endpoint, URL.EscapedPath, e1, e2, e3, hq, escape, shouldEscape, isAlnum]

theorem buildURL_eq (t : HTTPClient) (domain : GoString) (opts : Option SearchOptions) :
    (NewWithClient t).buildURL domain opts =
      .ok (lit "https://crt.sh/?" ++ searchQuery domain (excludes opts)) := by
  have hp : Parse (NewWithClient t).baseURL = .ok endpoint := Parse_baseURL
  unfold Client.buildURL
  rw [hp]
  have hpath : endpoint.Path = [] := by decide
  cases opts with
  | none =>
    simp only [hpath, if_true, excludes, Encode_without_exclude]
    rw [String_endpoint _ (searchQuery_ne_nil _ _)]
  | some o =>
    cases hi : o.IncludeExpired
    · simp only [hpath, if_true, excludes, hi, Bool.not_false, Encode_with_exclude]
      rw [String_endpoint _ (searchQuery_ne_nil _ _)]
    · simp only [hpath, if_true, excludes, hi, Bool.not_true, Bool.false_eq_true, if_false,
        Encode_without_exclude]
      rw [String_endpoint _ (searchQuery_ne_nil _ _)]

set_option maxRecDepth 100000 in
theorem urlSafe_facts : ∀ b : Byte, urlSafe b = true →
    b ≠ 35 ∧ b ≠ 63 ∧ (b.val < 32 || b.val = 127) = false := by
  decide!

set_option maxRecDepth 100000 in
theorem searchQuery_urlSafe (d : GoString) (e : Bool) : ∀ b ∈ searchQuery d e, urlSafe b = true := by
  have e6 : lit "exclude=expired&" = [101, 120, 99, 108, 117, 100, 101, 61, 101, 120, 112, 105, 114, 101, 100, 38] := by decide!
  have e7 : lit "output=json&q=" = [111, 117, 116, 112, 117, 116, 61, 106, 115, 111, 110, 38, 113, 61] := by decide!
  intro b hb
  have hq : ∀ b ∈ QueryEscape d, urlSafe b = true := fun b hb => by
    simp [urlSafe, QueryEscape_safe d b hb]
  have h6 : ∀ b ∈ ([101, 120, 99, 108, 117, 100, 101, 61, 101, 120, 112, 105, 114, 101, 100, 38] : GoString),
      urlSafe b = true := by decide!
  have h7 : ∀ b ∈ ([111, 117, 116, 112, 117, 116, 61, 106, 115, 111, 110, 38, 113, 61] : GoString),
      urlSafe b = true := by decide!
  cases e
  · simp only [searchQuery, e7, Bool.false_eq_true, if_false, List.nil_append, List.mem_append] at hb
    rcases hb with hb | hb
    · exact h7 b hb
    · exact hq b hb
  · simp only [searchQuery, e6, e7, if_true, List.mem_append] at hb
    rcases hb with (hb | hb) | hb
    · exact h6 b hb
    · exact h7 b hb
    · exact hq b hb

theorem HasSuffix_append_single (a q : GoString) (c : Byte) (hq : q ≠ []) (hc : c ∉ q) :
    HasSuffix (a ++ q) [c] = false := by
  cases h : HasSuffix (a ++ q) [c]
  · rfl
  · rw [HasSuffix_single, List.getLast?_append_of_ne_nil _ hq] at h
    exact absurd (List.mem_of_getLast?_eq_some h) hc

set_option maxRecDepth 100000 in
theorem Parse_searchURL (q : GoString) (hq : q ≠ []) (hsafe : ∀ b ∈ q, urlSafe b = true) :
    Parse (lit "https://crt.sh/?" ++ q) =
      .ok { endpoint with Path := lit "/", RawQuery := q } := by
  have e1 : lit "/" = [47] := by decide!
  have e4 : lit "https://crt.sh/?" = [104, 116, 116, 112, 115, 58, 47, 47, 99, 114, 116, 46, 115, 104, 47, 63] := by decide!
  have h35 : (35 : Byte) ∉ q := fun h => (urlSafe_facts 35 (hsafe 35 h)).1 rfl
  have h63 : (63 : Byte) ∉ q := fun h => (urlSafe_facts 63 (hsafe 63 h)).2.1 rfl
  have hctl : stringContainsCTLByte q = false := by
    simp only [stringContainsCTLByte, List.any_eq_false]
    intro b hb
    simp [(urlSafe_facts b (hsafe b hb)).2.2]
  have hcut35 : Cut (lit "https://crt.sh/?" ++ q) [35] = (lit "https://crt.sh/?" ++ q, [], false) := by
    apply Cut_single_not_mem
    rw [e4]
    simp only [List.mem_append, not_or]
    exact ⟨by decide, h35⟩
  have hsuf : HasSuffix ([47, 47, 99, 114, 116, 46, 115, 104, 47, 63] ++ q) [63] = false :=
    HasSuffix_append_single _ q 63 hq h63
  have hcut63 : Cut ([47, 47, 99, 114, 116, 46, 115, 104, 47] ++ 63 :: q) [63] =
      ([47, 47, 99, 114, 116, 46, 115, 104, 47], q, true) :=
    Cut_single_append 63 _ q (by decide)
  unfold Parse
  rw [hcut35]
  have hparse : parse (lit "https://crt.sh/?" ++ q) =
      .ok { endpoint with Path := lit "/", RawQuery := q } := by
    rw [e4, e1]
    unfold parse
    have hctl2 : stringContainsCTLByte
        ([104, 116, 116, 112, 115, 58, 47, 47, 99, 114, 116, 46, 115, 104, 47, 63] ++ q) = false := by
      simp only [stringContainsCTLByte, List.any_append] at hctl ⊢
      rw [hctl]
      decide
    have hscheme : getScheme ([104, 116, 116, 112, 115, 58, 47, 47, 99, 114, 116, 46, 115, 104, 47, 63] ++ q) =
        .ok ([104, 116, 116, 112, 115], [47, 47, 99, 114, 116, 46, 115, 104, 47, 63] ++ q) := by
      simp +decide [getScheme, getSchemeLoop]
    rw [hctl2, hscheme]
    simp only [List.cons_append, List.nil_append] at hsuf hcut63 ⊢
    simp +decide [hsuf, hcut63, endpoint, ToLower, HasPrefix, indexFrom, parseAuthority, parseHost,
      LastIndexByte, lastIndexFrom, URL.setPath, unescape, escape, shouldEscape, isAlnum]
  rw [hparse]
  simp


/-! ## The request of a search and the handling of its answer -/

theorem validation_passes (domain : GoString) (h : validDomain domain) :
    domain ≠ [] ∧
      (Contains domain (lit " ") || HasPrefix domain (lit ".") || HasSuffix domain (lit ".")) = false := by
  have e1 : lit " " = [32] := by decide!
  have e2 : lit "." = [46] := by decide!
  obtain ⟨h1, h2, h3, h4⟩ := h
  refine ⟨h1, ?_⟩
  rw [e1, e2]
  have c1 : Contains domain [32] = false := by
    cases hc : Contains domain [32]
    · rfl
    · exact absurd ((Contains_single domain 32).mp hc) h2
  have c2 : HasPrefix domain [46] = false := by
    cases hc : HasPrefix domain [46]
    · rfl
    · exact absurd ((HasPrefix_single domain 46).mp hc) h3
  have c3 : HasSuffix domain [46] = false := by
    cases hc : HasSuffix domain [46]
    · rfl
    · exact absurd ((HasSuffix_single domain 46).mp hc) h4
  simp [c1, c2, c3]

set_option maxRecDepth 100000 in
theorem NewRequest_searchURL (cx : Context) (q : GoString) (hq : q ≠ [])
    (hsafe : ∀ b ∈ q, urlSafe b = true) :
    NewRequestWithContext (some cx) (lit "GET") (lit "https://crt.sh/?" ++ q) =
      .ok { ctx := cx, Method := lit "GET",
            URL := { endpoint with Path := lit "/", RawQuery := q },
            Header := [], Host := lit "crt.sh" } := by
  have hm : (lit "GET" = []) = False := by decide!
  have hv : validMethod (lit "GET") = true := by decide!
  have hr : removeEmptyPort (lit "crt.sh") = lit "crt.sh" := by decide!
  have hh : endpoint.Host = lit "crt.sh" := by decide!
  unfold NewRequestWithContext
  simp only [hm, if_false, hv, Bool.not_true, Bool.false_eq_true, Parse_searchURL q hq hsafe, hh, hr]

set_option maxRecDepth 100000 in
theorem Search_valid (t : HTTPClient) (cx : Context) (domain : GoString)
    (opts : Option SearchOptions) (h : validDomain domain) :
    (NewWithClient t).Search (some cx) domain opts =
      respond (searchRequest cx domain opts) (t (searchRequest cx domain opts)) := by
  obtain ⟨h1, h2⟩ := validation_passes domain h
  have hset : Values.Set (Values.Set [] (lit "User-Agent") userAgent) (lit "Accept")
      (lit "application/json") =
      [(lit "User-Agent", [userAgent]), (lit "Accept", [lit "application/json"])] := by decide!
  have hsd : (if (match opts with | some o => o.Wildcard | none => false) &&
        !Contains domain (lit "%") && !HasPrefix domain (lit "*.") then lit "%." ++ domain
      else domain) = searchDomain domain opts := by
    cases opts <;> simp [searchDomain]
  have hc : (NewWithClient t).client = t := rfl
  unfold Client.Search
  simp only [h1, if_false, h2, Bool.false_eq_true, hsd, buildURL_eq,
    NewRequest_searchURL cx _ (searchQuery_ne_nil _ _) (searchQuery_urlSafe _ _), hset, hc]
  unfold respond searchRequest
  rfl


/-! ## Reading the query back -/

theorem splitByte_not_mem (sep : Byte) (s : GoString) (h : sep ∉ s) : splitByte sep s = [s] := by
  induction s with
  | nil => rfl
  | cons b s ih =>
    simp only [List.mem_cons, not_or] at h
    have hb : ¬ b = sep := fun e => h.1 e.symm
    simp [splitByte, hb, ih h.2]

theorem Contains_single_false (s : GoString) (c : Byte) (h : c ∉ s) : Contains s [c] = false := by
  cases hc : Contains s [c]
  · rfl
  · exact absurd ((Contains_single s c).mp hc) h

set_option maxRecDepth 100000 in
theorem ParseQuery_searchQuery (d : GoString) (e : Bool) :
    ParseQuery (searchQuery d e) =
      ((if e then [(lit "exclude", [lit "expired"])] else []) ++
        [(lit "output", [lit "json"]), (lit "q", [d])], none) := by
  have e1 : lit "q" = [113] := by decide!
  have e2 : lit "output" = [111, 117, 116, 112, 117, 116] := by decide!
  have e3 : lit "exclude" = [101, 120, 99, 108, 117, 100, 101] := by decide!
  have e4 : lit "json" = [106, 115, 111, 110] := by decide!
  have e5 : lit "expired" = [101, 120, 112, 105, 114, 101, 100] := by decide!
  have e6 : lit "exclude=expired&" = [101, 120, 99, 108, 117, 100, 101, 61, 101, 120, 112, 105, 114, 101, 100, 38] := by decide!
  have e7 : lit "output=json&q=" = [111, 117, 116, 112, 117, 116, 61, 106, 115, 111, 110, 38, 113, 61] := by decide!
  have h38 : (38 : Byte) ∉ QueryEscape d := QueryEscape_not_mem d 38 (by decide)
  have h59 : (59 : Byte) ∉ QueryEscape d := QueryEscape_not_mem d 59 (by decide)
  have hsplit : splitByte 38 (QueryEscape d) = [QueryEscape d] := splitByte_not_mem 38 _ h38
  have hq : parseQueryPiece ([([111, 117, 116, 112, 117, 116], [[106, 115, 111, 110]])], none)
      (113 :: 61 :: QueryEscape d) =
      ([([111, 117, 116, 112, 117, 116], [[106, 115, 111, 110]]), ([113], [d])], none) := by
    have hc : Contains (113 :: 61 :: QueryEscape d) [59] = false :=
      Contains_single_false _ 59 (by simp [h59])
    have hcut : Cut ([113] ++ 61 :: QueryEscape d) [61] = ([113], QueryEscape d, true) :=
      Cut_single_append 61 [113] _ (by decide)
    have hu : QueryUnescape [113] = .ok [113] := by decide!
    simp only [List.cons_append, List.nil_append] at hcut
    simp +decide [parseQueryPiece, hc, hcut, hu, QueryUnescape_QueryEscape, Values.Add]
  have hq2 : parseQueryPiece ([([101, 120, 99, 108, 117, 100, 101], [[101, 120, 112, 105, 114, 101, 100]]),
        ([111, 117, 116, 112, 117, 116], [[106, 115, 111, 110]])], none)
      (113 :: 61 :: QueryEscape d) =
      ([([101, 120, 99, 108, 117, 100, 101], [[101, 120, 112, 105, 114, 101, 100]]),
        ([111, 117, 116, 112, 117, 116], [[106, 115, 111, 110]]), ([113], [d])], none) := by
    have hc : Contains (113 :: 61 :: QueryEscape d) [59] = false :=
      Contains_single_false _ 59 (by simp [h59])
    have hcut : Cut ([113] ++ 61 :: QueryEscape d) [61] = ([113], QueryEscape d, true) :=
      Cut_single_append 61 [113] _ (by decide)
    have hu : QueryUnescape [113] = .ok [113] := by decide!
    simp only [List.cons_append, List.nil_append] at hcut
    simp +decide [parseQueryPiece, hc, hcut, hu, QueryUnescape_QueryEscape, Values.Add]
  have ho : parseQueryPiece ([], none) [111, 117, 116, 112, 117, 116, 61, 106, 115, 111, 110] =
      ([([111, 117, 116, 112, 117, 116], [[106, 115, 111, 110]])], none) := by decide!
  have hx : parseQueryPiece ([], none) [101, 120, 99, 108, 117, 100, 101, 61, 101, 120, 112, 105, 114, 101, 100] =
      ([([101, 120, 99, 108, 117, 100, 101], [[101, 120, 112, 105, 114, 101, 100]])], none) := by
    decide!
  have ho2 : parseQueryPiece ([([101, 120, 99, 108, 117, 100, 101], [[101, 120, 112, 105, 114, 101, 100]])], none)
      [111, 117, 116, 112, 117, 116, 61, 106, 115, 111, 110] =
      ([([101, 120, 99, 108, 117, 100, 101], [[101, 120, 112, 105, 114, 101, 100]]),
        ([111, 117, 116, 112, 117, 116], [[106, 115, 111, 110]])], none) := by decide!
  have hs1 : splitByte 38 ([111, 117, 116, 112, 117, 116, 61, 106, 115, 111, 110, 38, 113, 61] ++ QueryEscape d) =
      [[111, 117, 116, 112, 117, 116, 61, 106, 115, 111, 110], 113 :: 61 :: QueryEscape d] := by
    simp [splitByte, hsplit]
  have hs2 : splitByte 38 ([101, 120, 99, 108, 117, 100, 101, 61, 101, 120, 112, 105, 114, 101, 100, 38] ++
      ([111, 117, 116, 112, 117, 116, 61, 106, 115, 111, 110, 38, 113, 61] ++ QueryEscape d)) =
      [[101, 120, 99, 108, 117, 100, 101, 61, 101, 120, 112, 105, 114, 101, 100],
        [111, 117, 116, 112, 117, 116, 61, 106, 115, 111, 110], 113 :: 61 :: QueryEscape d] := by
    simp [splitByte, hsplit]
  cases e
  · have hne : ([111, 117, 116, 112, 117, 116, 61, 106, 115, 111, 110, 38, 113, 61] ++ QueryEscape d = []) = False := by
      simp
    simp only [ParseQuery, searchQuery, e1, e2, e4, e7, Bool.false_eq_true, if_false, List.nil_append,
      hne, hs1, List.foldl_cons, List.foldl_nil, ho, hq]
  · have hne : ([101, 120, 99, 108, 117, 100, 101, 61, 101, 120, 112, 105, 114, 101, 100, 38] ++
        ([111, 117, 116, 112, 117, 116, 61, 106, 115, 111, 110, 38, 113, 61] ++ QueryEscape d) = []) = False := by
      simp
    simp only [ParseQuery, searchQuery, e1, e2, e3, e4, e5, e6, e7, if_true, List.append_assoc,
      hne, if_false, hs2, List.foldl_cons, List.foldl_nil, hx, ho2, hq2]
    rfl


/-! ## Decoding objects into records -/

theorem respond_trace_head (req : Request) (answer : Except GoError Response) :
    (respond req answer).trace.head? = some (.Do req) := by
  unfold respond
  split
  · rfl
  · split
    · rfl
    · split
      · rfl
      · split
        · rfl
        · split <;> rfl

theorem HasPrefix_iff_starts (s p : GoString) : HasPrefix s p = true ↔ p <+: s := by
  rw [List.prefix_iff_eq_take]
  unfold HasPrefix
  constructor
  · intro h
    simp only [Bool.and_eq_true, decide_eq_true_eq, beq_iff_eq] at h
    exact h.2.symm
  · intro h
    simp only [Bool.and_eq_true, decide_eq_true_eq, beq_iff_eq]
    refine ⟨?_, h.symm⟩
    have := congrArg List.length h
    simp only [List.length_take] at this
    omega

theorem searchDomain_eq (domain : GoString) (opts : Option SearchOptions) :
    searchDomain domain opts =
      if (match opts with | some o => o.Wildcard | none => false) = true ∧ (37 : Byte) ∉ domain ∧
          ¬ ([42, 46] <+: domain) then lit "%." ++ domain else domain := by
  have e1 : lit "%" = [37] := by decide!
  have e2 : lit "*." = [42, 46] := by decide!
  cases opts with
  | none => simp [searchDomain]
  | some o =>
    simp only [searchDomain, e1, e2]
    by_cases hw : o.Wildcard = true
    · by_cases hc : (37 : Byte) ∈ domain
      · simp [hw, hc, (Contains_single domain 37).mpr hc]
      · have hcf : Contains domain [37] = false := Contains_single_false domain 37 hc
        by_cases hp : [42, 46] <+: domain
        · simp [hw, hc, hcf, hp, (HasPrefix_iff_starts domain [42, 46]).mpr hp]
        · have hpf : HasPrefix domain [42, 46] = false := by
            cases hh : HasPrefix domain [42, 46]
            · rfl
            · exact absurd ((HasPrefix_iff_starts domain [42, 46]).mp hh) hp
          simp [hw, hc, hcf, hp, hpf]
    · simp [hw]

theorem Search_invalid (c : Client) (ctx : Option Context) (domain : GoString)
    (opts : Option SearchOptions)
    (h : domain = [] ∨ (32 : Byte) ∈ domain ∨ domain.head? = some 46 ∨ domain.getLast? = some 46) :
    c.Search ctx domain opts =
      { records := none,
        err := some (.errorString
          (if domain = [] then lit "domain cannot be empty"
           else lit "invalid domain format: " ++ domain)),
        trace := [] } := by
  have e1 : lit " " = [32] := by decide!
  have e2 : lit "." = [46] := by decide!
  by_cases hd : domain = []
  · simp [Client.Search, hd]
  · have hbad : (Contains domain (lit " ") || HasPrefix domain (lit ".") ||
        HasSuffix domain (lit ".")) = true := by
      rw [e1, e2]
      rcases h with h | h | h | h
      · exact absurd h hd
      · simp [(Contains_single domain 32).mpr h]
      · simp [(HasPrefix_single domain 46).mpr h]
      · simp [(HasSuffix_single domain 46).mpr h]
    unfold Client.Search
    simp only [hd, if_false, hbad, if_true]

/-! ## The claims -/

/-- C1: for every domain that is empty, contains a space, starts with a full stop or ends
with a full stop, and for every options argument (absent or supplied), `Search` returns a
non-nil error with no records and the HTTP client is never invoked. -/
theorem Search_rejects_invalid_domain (c : Client) (ctx : Option Context) (domain : GoString)
    (opts : Option SearchOptions)
    (h : domain = [] ∨ (32 : Byte) ∈ domain ∨ domain.head? = some 46 ∨ domain.getLast? = some 46) :
    (c.Search ctx domain opts).records = none ∧
      (c.Search ctx domain opts).err =
        some (.errorString
          (if domain = [] then lit "domain cannot be empty"
           else lit "invalid domain format: " ++ domain)) ∧
      (c.Search ctx domain opts).trace = [] := by
  rw [Search_invalid c ctx domain opts h]
  exact ⟨rfl, rfl, rfl⟩

/-- Witness of C1 at the domain ".example.com". -/
theorem Search_rejects_invalid_domain_witness :
    ((lit ".example.com" = [] ∨ (32 : Byte) ∈ lit ".example.com" ∨
        (lit ".example.com").head? = some 46 ∨ (lit ".example.com").getLast? = some 46)) ∧
      ((NewWithClient (stub 200 [])).Search (some ⟨0⟩) (lit ".example.com") none).records = none ∧
      ((NewWithClient (stub 200 [])).Search (some ⟨0⟩) (lit ".example.com") none).err =
        some (.errorString
          (if lit ".example.com" = [] then lit "domain cannot be empty"
           else lit "invalid domain format: " ++ lit ".example.com")) ∧
      ((NewWithClient (stub 200 [])).Search (some ⟨0⟩) (lit ".example.com") none).trace = [] :=
  ⟨by decide!, Search_rejects_invalid_domain _ _ _ _ (by decide!)⟩

/-- C2, as stated, fails: the domain "a", tab, "b" contains white space, yet `Search` does
not reject it; the request is sent and the answer of the service is returned. -/
theorem tab_domain_is_not_rejected :
    (9 : Byte) ∈ ([97, 9, 98] : GoString) ∧
      ((NewWithClient (stub 200 (lit "[]"))).Search (some ⟨0⟩) [97, 9, 98] none).err = none ∧
      ((NewWithClient (stub 200 (lit "[]"))).Search (some ⟨0⟩) [97, 9, 98] none).trace.length = 1 := by
  decide!

/-- C2, amended: every domain that contains the space character is rejected with the
invalid-format error before any network call; a domain that is not empty, has no space
and neither starts nor ends with a full stop passes validation whatever other bytes (tab,
line feed, carriage return) it contains, and its request is handed to the HTTP client. -/
theorem space_is_the_only_rejected_white_space (t : HTTPClient) (cx : Context)
    (domain : GoString) (opts : Option SearchOptions) :
    ((32 : Byte) ∈ domain →
        (NewWithClient t).Search (some cx) domain opts =
          { records := none,
            err := some (.errorString (lit "invalid domain format: " ++ domain)),
            trace := [] }) ∧
      (validDomain domain →
        ((NewWithClient t).Search (some cx) domain opts).trace.head? =
          some (.Do (searchRequest cx domain opts))) := by
  constructor
  · intro h
    have hd : domain ≠ [] := by
      intro e
      rw [e] at h
      simp at h
    rw [Search_invalid (NewWithClient t) (some cx) domain opts (Or.inr (Or.inl h))]
    simp only [hd, if_false]
  · intro hv
    rw [Search_valid t cx domain opts hv]
    exact respond_trace_head _ _

/-- Witness of the amended C2 at the domains "a b" and "a", line feed, "b". -/
theorem space_is_the_only_rejected_white_space_witness :
    ((32 : Byte) ∈ lit "a b" ∧
        (NewWithClient (stub 200 [])).Search (some ⟨0⟩) (lit "a b") none =
          { records := none,
            err := some (.errorString (lit "invalid domain format: " ++ lit "a b")),
            trace := [] }) ∧
      (validDomain [97, 10, 98] ∧
        ((NewWithClient (stub 200 [])).Search (some ⟨0⟩) [97, 10, 98] none).trace.head? =
          some (.Do (searchRequest ⟨0⟩ [97, 10, 98] none))) :=
  ⟨⟨by decide!, (space_is_the_only_rejected_white_space _ _ _ _).1 (by decide!)⟩,
    ⟨by decide!, (space_is_the_only_rejected_white_space _ _ _ _).2 (by decide!)⟩⟩


/-- C3: for every domain that passes validation, the request `Search` sends carries, as the
value of its `q` query parameter, the domain prefixed with `%.` when `Wildcard` is true and
the domain has no `%` and does not start with `*.`, and the unchanged domain in every other
case (a domain with `%` or starting with `*.`, `Wildcard` false, absent options). -/
theorem wildcard_query_value (t : HTTPClient) (cx : Context) (domain : GoString)
    (opts : Option SearchOptions) (hv : validDomain domain) :
    ∃ req, ((NewWithClient t).Search (some cx) domain opts).trace.head? = some (.Do req) ∧
      ParseQuery req.URL.RawQuery =
        ((if (match opts with | some o => !o.IncludeExpired | none => false) = true then
            [(lit "exclude", [lit "expired"])] else []) ++
          [(lit "output", [lit "json"]),
            (lit "q", [if (match opts with | some o => o.Wildcard | none => false) = true ∧
                (37 : Byte) ∉ domain ∧ ¬ ([42, 46] <+: domain) then lit "%." ++ domain
              else domain])], none) := by
  refine ⟨searchRequest cx domain opts, ?_, ?_⟩
  · rw [Search_valid t cx domain opts hv]
    exact respond_trace_head _ _
  · have he : excludes opts = (match opts with | some o => !o.IncludeExpired | none => false) := by
      cases opts <;> rfl
    simp only [searchRequest, ParseQuery_searchQuery, searchDomain_eq, he]

/-- Witness of C3: a wildcard search of "example.com" sends `q = %.example.com`. -/
theorem wildcard_query_value_witness :
    validDomain (lit "example.com") ∧
      ∃ req, ((NewWithClient (stub 200 [])).Search (some ⟨0⟩) (lit "example.com")
          (some { IncludeExpired := true, Wildcard := true })).trace.head? = some (.Do req) ∧
        ParseQuery req.URL.RawQuery =
          ((if (match some ({ IncludeExpired := true, Wildcard := true } : SearchOptions) with
                | some o => !o.IncludeExpired | none => false) = true then
              [(lit "exclude", [lit "expired"])] else []) ++
            [(lit "output", [lit "json"]),
              (lit "q", [if (match some ({ IncludeExpired := true, Wildcard := true } : SearchOptions)
                    with | some o => o.Wildcard | none => false) = true ∧
                  (37 : Byte) ∉ lit "example.com" ∧ ¬ ([42, 46] <+: lit "example.com") then
                  lit "%." ++ lit "example.com"
                else lit "example.com"])], none) :=
  ⟨by decide!, wildcard_query_value _ _ _ _ (by decide!)⟩

/-- C4: for every valid domain and every `SearchOptions` value passed to `Search`, the query
of the request carries the parameter `exclude=expired` when `IncludeExpired` is false and
carries no `exclude` parameter when `IncludeExpired` is true, whatever `Wildcard` and the
domain are. -/
theorem exclude_expired_iff_not_included (t : HTTPClient) (cx : Context) (domain : GoString)
    (o : SearchOptions) (hv : validDomain domain) :
    ∃ req, ((NewWithClient t).Search (some cx) domain (some o)).trace.head? = some (.Do req) ∧
      (∃ d, req.URL.RawQuery =
        (if o.IncludeExpired = false then lit "exclude=expired&" else []) ++
          lit "output=json&q=" ++ QueryEscape d) ∧
      Values.lookup (ParseQuery req.URL.RawQuery).1 (lit "exclude") =
        (if o.IncludeExpired = false then [lit "expired"] else []) ∧
      (Values.Has (ParseQuery req.URL.RawQuery).1 (lit "exclude") = true ↔
        o.IncludeExpired = false) := by
  have e1 : lit "q" = [113] := by decide!
  have e2 : lit "output" = [111, 117, 116, 112, 117, 116] := by decide!
  have e3 : lit "exclude" = [101, 120, 99, 108, 117, 100, 101] := by decide!
  refine ⟨searchRequest cx domain (some o), ?_, ⟨searchDomain domain (some o), ?_⟩, ?_, ?_⟩
  · rw [Search_valid t cx domain (some o) hv]
    exact respond_trace_head _ _
  · cases hi : o.IncludeExpired <;> simp [searchRequest, searchQuery, excludes, hi]
  · simp only [searchRequest, ParseQuery_searchQuery, excludes]
    cases hi : o.IncludeExpired <;> simp [Values.lookup, e1, e2, e3]
  · simp only [searchRequest, ParseQuery_searchQuery, excludes]
    cases hi : o.IncludeExpired <;> simp [Values.Has, e1, e2, e3]

/-- Witness of C4 at "example.com" with `IncludeExpired` false and `Wildcard` true. -/
theorem exclude_expired_iff_not_included_witness :
    validDomain (lit "example.com") ∧
      ∃ req, ((NewWithClient (stub 200 [])).Search (some ⟨0⟩) (lit "example.com")
          (some { IncludeExpired := false, Wildcard := true })).trace.head? = some (.Do req) ∧
        (∃ d, req.URL.RawQuery =
          (if ({ IncludeExpired := false, Wildcard := true } : SearchOptions).IncludeExpired = false
            then lit "exclude=expired&" else []) ++ lit "output=json&q=" ++ QueryEscape d) ∧
        Values.lookup (ParseQuery req.URL.RawQuery).1 (lit "exclude") =
          (if ({ IncludeExpired := false, Wildcard := true } : SearchOptions).IncludeExpired = false
            then [lit "expired"] else []) ∧
        (Values.Has (ParseQuery req.URL.RawQuery).1 (lit "exclude") = true ↔
          ({ IncludeExpired := false, Wildcard := true } : SearchOptions).IncludeExpired = false) :=
  ⟨by decide!, exclude_expired_iff_not_included _ _ _ _ (by decide!)⟩

/-- C5: absent options do not give the defaults. A basic search of "example.com" (`Search`
with nil options) builds a URL without `exclude=expired`, while a search with the default
options, `IncludeExpired` false and `Wildcard` false, builds one with it; against a service
whose only certificate has expired the first returns one record and the second none. -/
theorem basic_search_differs_from_default_options :
    (NewWithClient expiredOnly).buildURL (lit "example.com") none =
        .ok (lit "https://crt.sh/?output=json&q=example.com") ∧
      (NewWithClient expiredOnly).buildURL (lit "example.com")
          (some { IncludeExpired := false, Wildcard := false }) =
        .ok (lit "https://crt.sh/?exclude=expired&output=json&q=example.com") ∧
      ((NewWithClient expiredOnly).BasicSearch (some ⟨0⟩) (lit "example.com")).records =
        some [{ ID := 1 }] ∧
      ((NewWithClient expiredOnly).Search (some ⟨0⟩) (lit "example.com")
          (some { IncludeExpired := false, Wildcard := false })).records = some [] := by
  decide!


/-- C6: for every valid request and every response whose status code is outside 200..299,
with any body, `Search` returns no records and an error whose message carries the status
code in decimal and the raw body; the only effect is the one call of the HTTP client, the
body is not handed to the JSON decoder, so the outcome does not depend on whether the body
is valid JSON. -/
theorem non_2xx_gives_status_error (t : HTTPClient) (cx : Context) (domain : GoString)
    (opts : Option SearchOptions) (resp : Response) (hv : validDomain domain)
    (ht : t (searchRequest cx domain opts) = .ok resp)
    (hs : resp.StatusCode < 200 ∨ 299 < resp.StatusCode) :
    (NewWithClient t).Search (some cx) domain opts =
      { records := none,
        err := some (.errorString
          (lit "API request failed with status " ++ Itoa resp.StatusCode ++ lit ": " ++ resp.Body)),
        trace := [.Do (searchRequest cx domain opts)] } := by
  have hne : resp.StatusCode ≠ 200 := by omega
  rw [Search_valid t cx domain opts hv, ht]
  simp [respond, hne]

/-- Witness of C6: status 500 with body "oops" gives an error carrying 500 and "oops". -/
theorem non_2xx_gives_status_error_witness :
    validDomain (lit "example.com") ∧
      stub 500 (lit "oops") (searchRequest ⟨0⟩ (lit "example.com") none) =
        .ok { StatusCode := 500, Body := lit "oops" } ∧
      ((500 : Int) < 200 ∨ (299 : Int) < 500) ∧
      lit "API request failed with status " ++ Itoa 500 ++ lit ": " ++ lit "oops" =
        lit "API request failed with status 500: oops" ∧
      (NewWithClient (stub 500 (lit "oops"))).Search (some ⟨0⟩) (lit "example.com") none =
        { records := none,
          err := some (.errorString
            (lit "API request failed with status " ++ Itoa 500 ++ lit ": " ++ lit "oops")),
          trace := [.Do (searchRequest ⟨0⟩ (lit "example.com") none)] } :=
  ⟨by decide!, rfl, by decide, by decide!,
    non_2xx_gives_status_error (stub 500 (lit "oops")) ⟨0⟩ (lit "example.com") none
      { StatusCode := 500, Body := lit "oops" } (by decide!) rfl (by decide)⟩

/-- C7, as stated, fails: a response with status 204 and an empty body makes `Search` return
the status error, while the same body with status 200 gives an empty sequence and no
error. -/
theorem status_204_is_an_error :
    (200 : Int) ≤ 204 ∧ (204 : Int) ≤ 299 ∧
      (NewWithClient (stub 204 [])).Search (some ⟨0⟩) (lit "example.com") none =
        { records := none,
          err := some (.errorString (lit "API request failed with status 204: ")),
          trace := [.Do (searchRequest ⟨0⟩ (lit "example.com") none)] } ∧
      (NewWithClient (stub 200 [])).Search (some ⟨0⟩) (lit "example.com") none =
        { records := some [], err := none,
          trace := [.Do (searchRequest ⟨0⟩ (lit "example.com") none)] } := by
  decide!

/-- C7, amended: exactly the status 200 is treated as success. For every valid request and
every response, `Search` returns the status error if and only if the status code is not 200
(so also for 201..299); for status 200 and a body read without error, an empty body or `[]`
gives an empty sequence and no error, and any other body gives what the JSON decoder makes
of it. -/
theorem only_status_200_is_success (t : HTTPClient) (cx : Context) (domain : GoString)
    (opts : Option SearchOptions) (resp : Response) (hv : validDomain domain)
    (ht : t (searchRequest cx domain opts) = .ok resp) :
    (((NewWithClient t).Search (some cx) domain opts).err =
        some (.errorString
          (lit "API request failed with status " ++ Itoa resp.StatusCode ++ lit ": " ++ resp.Body)) ↔
      resp.StatusCode ≠ 200) ∧
    (resp.StatusCode = 200 → resp.BodyErr = none →
      ((resp.Body = [] ∨ resp.Body = lit "[]") →
        ((NewWithClient t).Search (some cx) domain opts).records = some [] ∧
        ((NewWithClient t).Search (some cx) domain opts).err = none) ∧
      (resp.Body ≠ [] → resp.Body ≠ lit "[]" → ∀ records, Unmarshal resp.Body = .ok records →
        ((NewWithClient t).Search (some cx) domain opts).records = records ∧
        ((NewWithClient t).Search (some cx) domain opts).err = none) ∧
      (resp.Body ≠ [] → resp.Body ≠ lit "[]" → ∀ e, Unmarshal resp.Body = .error e →
        ((NewWithClient t).Search (some cx) domain opts).records = none ∧
        ((NewWithClient t).Search (some cx) domain opts).err =
          some (.wrapError (lit "failed to parse JSON response: ") e))) := by
  rw [Search_valid t cx domain opts hv, ht]
  constructor
  · constructor
    · intro h hc
      simp only [respond, hc, ne_eq, not_true_eq_false, if_false] at h
      cases hb : resp.BodyErr with
      | some e => simp [hb] at h
      | none =>
        simp only [hb] at h
        split at h
        · simp at h
        · split at h <;> simp at h
    · intro h
      simp [respond, h]
  · intro hc hb
    refine ⟨?_, ?_, ?_⟩
    · intro hbody
      have hbody2 : resp.Body.length = 0 ∨ resp.Body = lit "[]" := by
        rcases hbody with h | h
        · exact Or.inl (by rw [h]; rfl)
        · exact Or.inr h
      simp [respond, hc, hb, hbody]
    · intro h1 h2 records hu
      have hbody2 : ¬ (resp.Body.length = 0 ∨ resp.Body = lit "[]") := by
        intro h
        rcases h with h | h
        · exact h1 (List.length_eq_zero.mp h)
        · exact h2 h
      simp [respond, hc, hb, h1, h2, hu]
    · intro h1 h2 e hu
      have hbody2 : ¬ (resp.Body.length = 0 ∨ resp.Body = lit "[]") := by
        intro h
        rcases h with h | h
        · exact h1 (List.length_eq_zero.mp h)
        · exact h2 h
      simp [respond, hc, hb, h1, h2, hu]

/-- Witness of the amended C7: status 201 with body `[]` gives the status error. -/
theorem only_status_200_is_success_witness :
    validDomain (lit "example.com") ∧
      stub 201 (lit "[]") (searchRequest ⟨0⟩ (lit "example.com") none) =
        .ok { StatusCode := 201, Body := lit "[]" } ∧
      (((NewWithClient (stub 201 (lit "[]"))).Search (some ⟨0⟩) (lit "example.com") none).err =
          some (.errorString
            (lit "API request failed with status " ++ Itoa 201 ++ lit ": " ++ lit "[]")) ↔
        (201 : Int) ≠ 200) :=
  ⟨by decide!, rfl,
    (only_status_200_is_success (stub 201 (lit "[]")) ⟨0⟩ (lit "example.com") none
      { StatusCode := 201, Body := lit "[]" } (by decide!) rfl).1⟩

/-- C8: for every valid domain and options, a response with status 200 whose body is empty
or is exactly `[]` makes `Search` return an empty sequence of records and a nil error; the
only effect is the one call of the HTTP client, the JSON decoder is not invoked. -/
theorem empty_body_gives_empty_sequence (t : HTTPClient) (cx : Context) (domain : GoString)
    (opts : Option SearchOptions) (body : GoString) (hv : validDomain domain)
    (ht : t (searchRequest cx domain opts) = .ok { StatusCode := 200, Body := body })
    (hb : body = [] ∨ body = lit "[]") :
    (NewWithClient t).Search (some cx) domain opts =
        { records := some [], err := none, trace := [.Do (searchRequest cx domain opts)] } ∧
      ((NewWithClient t).Search (some cx) domain opts).records.map List.length = some 0 := by
  have hbody2 : body.length = 0 ∨ body = lit "[]" := by
    rcases hb with h | h
    · exact Or.inl (by rw [h]; rfl)
    · exact Or.inr h
  rw [Search_valid t cx domain opts hv, ht]
  simp [respond, hb]

/-- Witness of C8 at the body `[]`. -/
theorem empty_body_gives_empty_sequence_witness :
    validDomain (lit "example.com") ∧
      stub 200 (lit "[]") (searchRequest ⟨0⟩ (lit "example.com") none) =
        .ok { StatusCode := 200, Body := lit "[]" } ∧
      (lit "[]" = [] ∨ lit "[]" = lit "[]") ∧
      (NewWithClient (stub 200 (lit "[]"))).Search (some ⟨0⟩) (lit "example.com") none =
        { records := some [], err := none,
          trace := [.Do (searchRequest ⟨0⟩ (lit "example.com") none)] } ∧
      ((NewWithClient (stub 200 (lit "[]"))).Search (some ⟨0⟩) (lit "example.com")
        none).records.map List.length = some 0 :=
  ⟨by decide!, rfl, Or.inr rfl,
    empty_body_gives_empty_sequence (stub 200 (lit "[]")) ⟨0⟩ (lit "example.com") none (lit "[]")
      (by decide!) rfl (Or.inr rfl)⟩

/-- C10: for every search-domain string and every options argument, `buildURL` on the fixed
endpoint succeeds and returns `https://crt.sh/?` followed by the parameters in alphabetical
order of key (`exclude=expired` when present, then `output=json`, then `q`); decoding the
query gives back `output = json` and exactly the search domain for `q`, and unescaping the
escaped domain gives the domain. The result does not depend on the HTTP client. -/
theorem buildURL_encodes_sorted_and_round_trips (t : HTTPClient) (domain : GoString)
    (opts : Option SearchOptions) :
    (NewWithClient t).buildURL domain opts =
        .ok (lit "https://crt.sh/?" ++
          ((if (match opts with | some o => !o.IncludeExpired | none => false) = true then
              lit "exclude=expired&" else []) ++ lit "output=json&q=" ++ QueryEscape domain)) ∧
      QueryUnescape (QueryEscape domain) = .ok domain ∧
      ParseQuery ((if (match opts with | some o => !o.IncludeExpired | none => false) = true then
            lit "exclude=expired&" else []) ++ lit "output=json&q=" ++ QueryEscape domain) =
        ((if (match opts with | some o => !o.IncludeExpired | none => false) = true then
            [(lit "exclude", [lit "expired"])] else []) ++
          [(lit "output", [lit "json"]), (lit "q", [domain])], none) ∧
      (∀ t2 : HTTPClient, (NewWithClient t2).buildURL domain opts =
        (NewWithClient t).buildURL domain opts) := by
  refine ⟨?_, QueryUnescape_QueryEscape domain, ?_, ?_⟩
  · rw [buildURL_eq]
    cases opts <;> rfl
  · have h := ParseQuery_searchQuery domain (excludes opts)
    cases opts <;> exact h
  · intro t2
    rw [buildURL_eq, buildURL_eq]


set_option maxRecDepth 1000000 in
/-- End-to-end scenario: a basic search of "example.com" against a service that answers with
33 distinct objects yields exactly 33 records, in the order of the body. -/
theorem basic_search_scenario_33 :
    ((NewWithClient (stub 200 (scenarioBody 33))).BasicSearch (some ⟨0⟩) (lit "example.com")).records =
        some ((List.range 33).map (fun i => scenarioRecord (i + 1))) ∧
      ((NewWithClient (stub 200 (scenarioBody 33))).BasicSearch (some ⟨0⟩) (lit "example.com")).err =
        none ∧
      ((List.range 33).map (fun i => scenarioRecord (i + 1))).length = 33 ∧
      ((List.range 33).map (fun i => scenarioRecord (i + 1))).Nodup := by
  decide!

end Gocrtsh
